import Mathlib

/-! Durability confirmation of `bucket_dura.go`.

A shallow embedding of the durability-confirmation code of the gocb client
(`src/bucket_dura.go`): the two observation callbacks (`observeOnceCas`,
`observeOnceSeqNo`), the per-node poller (`observeOne`) and the quorum
orchestrator (`durability`).

Conventions.
* Go `uint` and `int` are taken as 64 bit wide. `uint` values are `Nat`,
  `int` values are `Int`; every arithmetic operation of the source that can
  leave the range is followed by an explicit wrap (`wrapUint`, `wrapInt`).
* A goroutine is a function from the list of things its environment does to it
  (replies of the node, timers firing, signals arriving on a channel) to the
  state it reaches; an exhausted list means the goroutine is blocked waiting.
* A channel send is recorded in the sender's trace; a receive is an element of
  the receiver's input list. `replicaCh` and `persistCh` are unbuffered, so a
  send that nobody receives blocks its sender for ever: `observeOne` is the
  run of a poller all of whose sends are received, `observeOneReceived` is
  its run when only a given number of its sends are received.
-/

namespace Gocb

/-! ## Machine integers -/

/-- Conversion to Go `uint` (64 bit): the value modulo `2^64`. -/
def wrapUint (x : Int) : Nat := (x % 18446744073709551616).toNat

/-- Wrap-around of Go `int` (64 bit, two's complement). -/
def wrapInt (x : Int) : Int :=
  (x + 9223372036854775808) % 18446744073709551616 - 9223372036854775808

/-! ## Data model -/

/-- Modelled from the spec: the type `gocbcore.KeyState` and its constants
`KeyStatePersisted`, `KeyStateNotPersisted`, `KeyStateDeleted` are declared
outside `src/`; the spec lists the states a node reports as
`Persisted`, `NotPersisted`, `Deleted`, `Unknown`. `Unknown` stands for every
value that is none of the three named constants. -/
inductive KeyState where
  | Persisted
  | NotPersisted
  | Deleted
  | Unknown
  deriving DecidableEq, Repr

/-- Modelled from the spec: `Cas` is declared outside `src/`; a
version stamp compared by equality only (a 64 bit unsigned value). -/
abbrev Cas := Nat

/-- Modelled from the spec: `MutationToken` is declared outside `src/`;
`{partitionEpoch, sequenceNumber}`, named as the source uses them
(`mt.VbUuid`, `mt.SeqNo`). -/
structure MutationToken where
  VbUuid : Nat
  SeqNo : Nat
  deriving DecidableEq, Repr

/-- What the callback passed to `b.client.Observe` is called with:
`(ks, obsCas, err)`; `err = none` is Go's `nil`. -/
structure CasReply where
  ks : KeyState
  obsCas : Cas
  err : Option String
  deriving DecidableEq, Repr

/-- What the callback passed to `b.client.ObserveSeqNo` is called with:
`(currentSeqNo, persistSeqNo, err)`. -/
structure SeqReply where
  currentSeqNo : Nat
  persistSeqNo : Nat
  err : Option String
  deriving DecidableEq, Repr

/-! ## Observation callbacks -/

/-- Lines 46-53 and 68-75: `var out uint; if didReplicate { out |= 1 };
if didPersist { out |= 2 }`; the result is the value sent on `commCh`. -/
def packOut (didReplicate didPersist : Bool) : Nat :=
  let out : Nat := 0
  let out := if didReplicate then out ||| 1 else out
  let out := if didPersist then out ||| 2 else out
  out

/-- Lines 15-44 of `observeOnceCas`: the pair `(didReplicate, didPersist)`
after the `if / else if` chain over the observed key state. -/
def casVerdict (cas : Cas) (forDelete : Bool) (repId : Int)
    (ks : KeyState) (obsCas : Cas) : Bool × Bool :=
  let didReplicate := false
  let didPersist := false
  if ks = KeyState.Persisted then
    if !forDelete then
      if obsCas = cas then
        let didReplicate := if repId ≠ 0 then true else didReplicate
        (didReplicate, true)
      else (didReplicate, didPersist)
    else (didReplicate, didPersist)
  else if ks = KeyState.NotPersisted then
    if !forDelete then
      if obsCas = cas then
        let didReplicate := if repId ≠ 0 then true else didReplicate
        (didReplicate, didPersist)
      else (didReplicate, didPersist)
    else (didReplicate, didPersist)
  else if ks = KeyState.Deleted then
    if forDelete then (true, didPersist) else (didReplicate, didPersist)
  else
    if forDelete then (true, true) else (didReplicate, didPersist)

/-- The callback of `observeOnceCas` (lines 9-54): the value it sends on
`commCh` when the node's reply is `r`. -/
def observeOnceCas (cas : Cas) (forDelete : Bool) (repId : Int) (r : CasReply) : Nat :=
  match r.err with
  | some _ => 0
  | none =>
    let v := casVerdict cas forDelete repId r.ks r.obsCas
    packOut v.1 v.2

/-- Lines 65-66 of `observeOnceSeqNo`: `(didReplicate, didPersist)`. -/
def seqNoVerdict (mt : MutationToken) (currentSeqNo persistSeqNo : Nat) : Bool × Bool :=
  (decide (currentSeqNo ≥ mt.SeqNo), decide (persistSeqNo ≥ mt.SeqNo))

/-- The callback of `observeOnceSeqNo` (lines 59-76): the value it sends on
`commCh` when the node's reply is `r`. The node index `repId` is only passed
on to `ObserveSeqNo`; the callback does not read it. -/
def observeOnceSeqNo (mt : MutationToken) (_repId : Int) (r : SeqReply) : Nat :=
  match r.err with
  | some _ => 0
  | none =>
    let v := seqNoVerdict mt r.currentSeqNo r.persistSeqNo
    packOut v.1 v.2

/-! ## The per-node poller `observeOne` -/

/-- What the node would answer in one polling round to either observation
call; `observeOnce` decides which of the two calls is issued. -/
structure NodeReply where
  cas : CasReply
  seq : SeqReply
  deriving DecidableEq, Repr

/-- The closure `observeOnce` of `observeOne` (lines 80-86) composed with the
callback it installs: the value that arrives on `commCh` for the reply `r`. -/
def observeOnce (mt : MutationToken) (cas : Cas) (forDelete : Bool) (repId : Int)
    (r : NodeReply) : Nat :=
  if mt.VbUuid ≠ 0 ∧ mt.SeqNo ≠ 0 then
    observeOnceSeqNo mt repId r.seq
  else
    observeOnceCas cas forDelete repId r.cas

/-- The timers of one run of `observeOne`: `timeoutTmr` (line 102) and the
`waitTmr` acquired in the given round of the loop (line 125). -/
inductive Timer where
  | timeoutTmr
  | waitTmr (round : Nat)
  deriving DecidableEq, Repr

/-- The externally visible actions of `observeOne`, in program order. -/
inductive Action where
  | observe
  | cancel
  | acquireTimer (t : Timer)
  | releaseTimer (t : Timer) (wasRead : Bool)
  | sendReplica (v : Bool)
  | sendPersist (v : Bool)
  deriving DecidableEq, Repr

/-- Which branch of the inner `select` (lines 126-135) is taken. -/
inductive Wait where
  | pollElapsed
  | deadline
  deriving DecidableEq, Repr

/-- What the environment does during one iteration of the loop of
`observeOne` (lines 105-144):
* `dispatchError`: `observeOnce` returns a non-nil error (line 107);
* `deadline`: the call is dispatched and `timeoutTmr.C` fires before a value
  arrives on `commCh` (line 137);
* `reply r w`: the callback delivers its value for `r` on `commCh`
  (line 114), then the inner `select` takes branch `w`. -/
inductive Round where
  | dispatchError
  | deadline
  | reply (r : NodeReply) (w : Wait)
  deriving DecidableEq, Repr

/-- The local state of `observeOne` together with the actions performed so
far; `round` counts the `waitTmr` timers acquired, `returned` is set once the
function has executed a `return`. -/
structure Poller where
  sentReplicated : Bool
  sentPersisted : Bool
  round : Nat
  trace : List Action
  returned : Bool
  deriving DecidableEq, Repr

/-- Record one action. -/
def Poller.emit (s : Poller) (a : Action) : Poller :=
  { s with trace := s.trace ++ [a] }

/-- The closure `failMe` (lines 91-100). -/
def failMe (s : Poller) : Poller :=
  let s := if !s.sentReplicated then
      { s.emit (Action.sendReplica false) with sentReplicated := true }
    else s
  let s := if !s.sentPersisted then
      { s.emit (Action.sendPersist false) with sentPersisted := true }
    else s
  s

/-- Lines 116-123: the sends triggered by the value `val` read from `commCh`. -/
def gotValue (s : Poller) (val : Nat) : Poller :=
  let s := if (val &&& 1) ≠ 0 ∧ !s.sentReplicated then
      { s.emit (Action.sendReplica true) with sentReplicated := true }
    else s
  let s := if (val &&& 2) ≠ 0 ∧ !s.sentPersisted then
      { s.emit (Action.sendPersist true) with sentPersisted := true }
    else s
  s

/-- The `for` loop of `observeOne` (lines 105-144), driven by the rounds the
environment provides, for a poller each of whose sends on `replicaCh` and
`persistCh` is received (see `observeOneReceived` for the run in which the
receiver stops receiving). When the rounds are used up the poller is blocked
at the top of the loop (`returned = false`); rounds after a `return` are
never looked at. -/
def observeLoop (mt : MutationToken) (cas : Cas) (forDelete : Bool) (repId : Int) :
    Poller → List Round → Poller
  | s, [] => s
  | s, Round.dispatchError :: _ =>
    let s := s.emit Action.observe
    let s := s.emit (Action.releaseTimer Timer.timeoutTmr false)
    let s := failMe s
    { s with returned := true }
  | s, Round.deadline :: _ =>
    let s := s.emit Action.observe
    let s := s.emit Action.cancel
    let s := s.emit (Action.releaseTimer Timer.timeoutTmr true)
    let s := failMe s
    { s with returned := true }
  | s, Round.reply r w :: rest =>
    let s := s.emit Action.observe
    let s := gotValue s (observeOnce mt cas forDelete repId r)
    let waitTmr := Timer.waitTmr s.round
    let s := { s.emit (Action.acquireTimer waitTmr) with round := s.round + 1 }
    match w with
    | Wait.pollElapsed =>
      let s := s.emit (Action.releaseTimer waitTmr true)
      observeLoop mt cas forDelete repId s rest
    | Wait.deadline =>
      let s := s.emit (Action.releaseTimer waitTmr false)
      let s := s.emit (Action.releaseTimer Timer.timeoutTmr true)
      let s := failMe s
      { s with returned := true }

/-- The state of `observeOne` at line 104, after `acquireTimer(b.duraTimeout)`. -/
def Poller.start : Poller :=
  { sentReplicated := false, sentPersisted := false, round := 0,
    trace := [Action.acquireTimer Timer.timeoutTmr], returned := false }

/-- The function `observeOne` (lines 79-145) run against the given rounds. -/
def observeOne (mt : MutationToken) (cas : Cas) (forDelete : Bool) (repId : Int)
    (rounds : List Round) : Poller :=
  observeLoop mt cas forDelete repId Poller.start rounds

/-- Number of values sent on `replicaCh` in a trace. -/
def replicaSends (tr : List Action) : Nat :=
  tr.countP fun a => match a with
    | Action.sendReplica _ => true
    | _ => false

/-- Number of values sent on `persistCh` in a trace. -/
def persistSends (tr : List Action) : Nat :=
  tr.countP fun a => match a with
    | Action.sendPersist _ => true
    | _ => false

/-- Number of calls of `observeOnce` in a trace. -/
def observeCalls (tr : List Action) : Nat :=
  tr.count Action.observe

/-- The flags `sentReplicated`, `sentPersisted` agree with the trace: a flag
is set exactly when one value has been sent on its channel, and otherwise
none has. -/
def Poller.SendsMatch (s : Poller) : Prop :=
  replicaSends s.trace = (if s.sentReplicated then 1 else 0) ∧
    persistSends s.trace = (if s.sentPersisted then 1 else 0)

/-- Trace `b` continues trace `a`: everything done in `a` is the beginning of
`b`. -/
def TraceExtends (a b : List Action) : Prop :=
  ∃ t, b = a ++ t

/-- The condition of line 81: the token strategy is used. -/
def tokenStrategy (mt : MutationToken) : Bool :=
  decide (mt.VbUuid ≠ 0 ∧ mt.SeqNo ≠ 0)

/-- Change the node's reply of a round, leaving the timer events as they are. -/
def Round.withReply (f : NodeReply → NodeReply) : Round → Round
  | Round.reply r w => Round.reply (f r) w
  | Round.dispatchError => Round.dispatchError
  | Round.deadline => Round.deadline

/-- The replies whose value `observeOne` reads from `commCh` (line 114) when
it meets the given rounds: those of the rounds up to the one in which it
returns. -/
def polled : List Round → List NodeReply
  | [] => []
  | Round.dispatchError :: _ => []
  | Round.deadline :: _ => []
  | Round.reply r Wait.pollElapsed :: rest => r :: polled rest
  | Round.reply r Wait.deadline :: _ => [r]

/-- Some value read from `commCh` had bit 1 (`val & 1`) set. -/
def confirmedReplica (mt : MutationToken) (cas : Cas) (forDelete : Bool) (repId : Int)
    (rounds : List Round) : Bool :=
  (polled rounds).any fun r => decide ((observeOnce mt cas forDelete repId r &&& 1) ≠ 0)

/-- Some value read from `commCh` had bit 2 (`val & 2`) set. -/
def confirmedPersist (mt : MutationToken) (cas : Cas) (forDelete : Bool) (repId : Int)
    (rounds : List Round) : Bool :=
  (polled rounds).any fun r => decide ((observeOnce mt cas forDelete repId r &&& 2) ≠ 0)

/-- The rounds contain one in which `observeOne` returns: a dispatch error, a
deadline while the observation is outstanding, or a deadline during the wait. -/
def terminates : List Round → Bool
  | [] => false
  | Round.dispatchError :: _ => true
  | Round.deadline :: _ => true
  | Round.reply _ Wait.pollElapsed :: rest => terminates rest
  | Round.reply _ Wait.deadline :: _ => true

/-- Number of iterations of the loop of `observeOne` that are entered. -/
def roundsRun : List Round → Nat
  | [] => 0
  | Round.dispatchError :: _ => 1
  | Round.deadline :: _ => 1
  | Round.reply _ Wait.pollElapsed :: rest => 1 + roundsRun rest
  | Round.reply _ Wait.deadline :: _ => 1

/-- The sends of lines 116-123 for the value `val`, as a list. -/
def valueSends (s : Poller) (val : Nat) : List Action :=
  (if (val &&& 1) ≠ 0 ∧ s.sentReplicated = false then [Action.sendReplica true] else []) ++
    (if (val &&& 2) ≠ 0 ∧ s.sentPersisted = false then [Action.sendPersist true] else [])

/-- The sends of `failMe` (lines 91-100), as a list. -/
def failSends (s : Poller) : List Action :=
  (if s.sentReplicated = false then [Action.sendReplica false] else []) ++
    (if s.sentPersisted = false then [Action.sendPersist false] else [])

/-- The state at the top of the loop after one round in which the value `val`
was read from `commCh` and the poll interval elapsed (lines 106-128). -/
def Poller.afterPoll (s : Poller) (val : Nat) : Poller :=
  { sentReplicated := s.sentReplicated || decide ((val &&& 1) ≠ 0),
    sentPersisted := s.sentPersisted || decide ((val &&& 2) ≠ 0),
    round := s.round + 1,
    trace := s.trace ++ ([Action.observe] ++ valueSends s val ++
      [Action.acquireTimer (Timer.waitTmr s.round),
       Action.releaseTimer (Timer.waitTmr s.round) true]),
    returned := s.returned }

/-- Number of `acquireTimer` calls that handed out timer `t`. -/
def acquires (t : Timer) (tr : List Action) : Nat :=
  tr.count (Action.acquireTimer t)

/-- Number of `releaseTimer` calls on timer `t`. -/
def releases (t : Timer) (tr : List Action) : Nat :=
  tr.countP fun a => match a with
    | Action.releaseTimer u _ => decide (u = t)
    | _ => false

/-- At every point of the trace each timer has been acquired at most once and
released no more often than acquired: no release before the acquisition, no
second release. -/
def TimersBalanced (tr : List Action) : Prop :=
  ∀ (k : Nat) (t : Timer),
    releases t (tr.take k) ≤ acquires t (tr.take k) ∧ acquires t (tr.take k) ≤ 1

/-- The timer bookkeeping of a trace: it is balanced at every point, the
deadline timer has been acquired once and released `released` times, the wait
timers of rounds below `acquired` have been acquired once and those of rounds
below `freed` released once, and no other wait timer has been touched. -/
def TimerInv (tr : List Action) (acquired freed released : Nat) : Prop :=
  TimersBalanced tr ∧ freed ≤ acquired ∧ released ≤ 1 ∧
    acquires Timer.timeoutTmr tr = 1 ∧ releases Timer.timeoutTmr tr = released ∧
    (∀ i, acquires (Timer.waitTmr i) tr = if i < acquired then 1 else 0) ∧
    (∀ i, releases (Timer.waitTmr i) tr = if i < freed then 1 else 0)

/-- An action that is neither `acquireTimer` nor `releaseTimer`. -/
def Action.timerFree : Action → Bool
  | Action.acquireTimer _ => false
  | Action.releaseTimer _ _ => false
  | _ => true

/-- A send on `replicaCh` or `persistCh` (lines 93, 97, 117, 121). -/
def Action.isSend : Action → Bool
  | Action.sendReplica _ => true
  | Action.sendPersist _ => true
  | _ => false

/-- The part of a trace that is carried out when only `accepted` of its sends
are received: everything before the first send that is not received, and that
send, in which the goroutine stays blocked (`none` when no send is left
over). -/
def upToSend : Nat → List Action → List Action × Option Action
  | _, [] => ([], none)
  | accepted, a :: rest =>
    if a.isSend = true then
      match accepted with
      | 0 => ([], some a)
      | n + 1 => (a :: (upToSend n rest).1, (upToSend n rest).2)
    else
      (a :: (upToSend accepted rest).1, (upToSend accepted rest).2)

/-- A run of `observeOne` on unbuffered channels: the actions carried out, the
send it is blocked in (if any), and whether it has returned. -/
structure PollerRun where
  trace : List Action
  pending : Option Action
  returned : Bool
  deriving DecidableEq, Repr

/-- The function `observeOne` (lines 79-145) when the receiver of `replicaCh`
and `persistCh` takes only `accepted` of its sends: it runs as `observeOne`
up to its next send, blocks there, and returns only if no send is left
over. -/
def observeOneReceived (mt : MutationToken) (cas : Cas) (forDelete : Bool) (repId : Int)
    (rounds : List Round) (accepted : Nat) : PollerRun :=
  let p := observeOne mt cas forDelete repId rounds
  let r := upToSend accepted p.trace
  { trace := r.1, pending := r.2, returned := p.returned && r.2.isNone }

/-! ## The orchestrator `durability` -/

/-- The error type `clientError` returned by `durability`. -/
structure clientError where
  message : String
  deriving DecidableEq, Repr

/-- The error of line 151. -/
def errNotEnoughReplicas : clientError :=
  ⟨"Not enough replicas to match durability requirements."⟩

/-- The error of line 184. -/
def errNotInTime : clientError :=
  ⟨"Failed to meet durability requirements in time."⟩

/-- One value received by the `select` of lines 168-179: `rV` from
`replicaCh` or `pV` from `persistCh`. -/
inductive Signal where
  | replica (rV : Bool)
  | persist (pV : Bool)
  deriving DecidableEq, Repr

/-- How far a run of `durability` got: still blocked in the `select`, or
returned with an error value (`none` is `nil`). -/
inductive Outcome where
  | blocked
  | returned (err : Option clientError)
  deriving DecidableEq, Repr

/-- The local variables `results`, `replicas`, `persists` (lines 163-165). -/
structure Counters where
  results : Int
  replicas : Nat
  persists : Nat
  deriving DecidableEq, Repr

/-- One pass through the `select` of lines 168-179. -/
def receive (c : Counters) : Signal → Counters
  | Signal.replica rV =>
    let c := if rV then { c with replicas := wrapUint (c.replicas + 1) } else c
    { c with results := wrapInt (c.results + 1) }
  | Signal.persist pV =>
    let c := if pV then { c with persists := wrapUint (c.persists + 1) } else c
    { c with results := wrapInt (c.results + 1) }

/-- A run of `durability`: the pollers started (by node index, in order), the
counters, the number of signals received and the outcome. -/
structure DuraRun where
  pollers : List Int
  counters : Counters
  consumed : Nat
  outcome : Outcome
  deriving DecidableEq, Repr

/-- Lines 181-185, the test made after each signal: `some err` when
`durability` returns `err` there (`none` is `nil`), `none` when the loop goes
round again. -/
def checkQuorum (numServers : Int) (replicaTo persistTo : Nat) (c : Counters) :
    Option (Option clientError) :=
  if c.replicas ≥ replicaTo ∧ c.persists ≥ persistTo then
    some none
  else if c.results = wrapInt (wrapInt (numServers * 2) - 1) then
    some (some errNotInTime)
  else
    none

/-- The accumulation loop (lines 167-186) from counters `c` after `consumed`
signals, for the signals still to arrive. -/
def accumulate (numServers : Int) (replicaTo persistTo : Nat) (pollers : List Int) :
    Counters → Nat → List Signal → DuraRun
  | c, consumed, [] =>
    { pollers := pollers, counters := c, consumed := consumed, outcome := Outcome.blocked }
  | c, consumed, sig :: rest =>
    let c := receive c sig
    match checkQuorum numServers replicaTo persistTo c with
    | some err =>
      { pollers := pollers, counters := c, consumed := consumed + 1,
        outcome := Outcome.returned err }
    | none =>
      accumulate numServers replicaTo persistTo pollers c (consumed + 1) rest

/-- The loop of lines 159-161: the node indices for which
`go b.observeOne(...)` is executed. -/
def startPollers (numServers : Int) : List Int :=
  (List.range numServers.toNat).map Int.ofNat

/-- The function `durability` (lines 147-187) for a cluster whose
`NumReplicas()` is `numReplicas`, run against the signals that arrive on the
two channels. -/
def durability (numReplicas : Int) (replicaTo persistTo : Nat) (sigs : List Signal) :
    DuraRun :=
  let numServers := wrapInt (numReplicas + 1)
  if replicaTo > wrapUint (wrapInt (numServers - 1)) ∨ persistTo > wrapUint numServers then
    { pollers := [], counters := ⟨0, 0, 0⟩, consumed := 0,
      outcome := Outcome.returned (some errNotEnoughReplicas) }
  else
    accumulate numServers replicaTo persistTo (startPollers numServers) ⟨0, 0, 0⟩ 0 sigs

/-- Number of calls of `observeOnce` made by the pollers a run started, when
the poller of node `repId` meets the rounds `rounds repId`. -/
def observeCallsOf (run : DuraRun) (mt : MutationToken) (cas : Cas)
    (forDelete : Bool) (rounds : Int → List Round) : Nat :=
  (run.pollers.map fun repId =>
    observeCalls (observeOne mt cas forDelete repId (rounds repId)).trace).sum

/-- Number of `true` values among the signals from `replicaCh`. -/
def trueReplicas (sigs : List Signal) : Nat :=
  sigs.count (Signal.replica true)

/-- Number of `true` values among the signals from `persistCh`. -/
def truePersists (sigs : List Signal) : Nat :=
  sigs.count (Signal.persist true)

/-- The success condition of line 181 on the true signals among `sigs`. -/
def quorumMet (replicaTo persistTo : Nat) (sigs : List Signal) : Prop :=
  trueReplicas sigs ≥ replicaTo ∧ truePersists sigs ≥ persistTo

instance (replicaTo persistTo : Nat) (sigs : List Signal) :
    Decidable (quorumMet replicaTo persistTo sigs) := by
  unfold quorumMet; infer_instance

/-- The values a trace puts on the two channels, in order. -/
def signalsOf (tr : List Action) : List Signal :=
  tr.filterMap fun a => match a with
    | Action.sendReplica v => some (Signal.replica v)
    | Action.sendPersist v => some (Signal.persist v)
    | _ => none

/-- The counters after the signals `sigs` have been received from counters `c`. -/
def countersAfter (c : Counters) (sigs : List Signal) : Counters :=
  sigs.foldl receive c

/-! ## The wrappers `TouchDura` ... `CounterDura`

The mutation primitives (`b.touch`, `b.remove`, ...) are declared outside
`src/`; a wrapper takes the primitive as a function returning what the Go
method returns, `(cas, mt, err)`, and `b.durability` as a function of the
arguments it is called with. -/

/-- The arguments of one call of `b.durability`. -/
structure DuraCall where
  key : String
  cas : Cas
  mt : MutationToken
  replicaTo : Nat
  persistTo : Nat
  forDelete : Bool
  deriving DecidableEq, Repr

/-- What a wrapper returns (`value` is the `Cas`, or `(val, cas)` for
`CounterDura`, and `err`), together with the calls of `b.durability` it made. -/
structure WrapperRun (ε α : Type) where
  value : α
  err : Option ε
  duraCalls : List DuraCall

/-- `TouchDura` (lines 190-196). -/
def TouchDura {ε : Type} (touch : String → Cas → Nat → Cas × MutationToken × Option ε)
    (durability : DuraCall → Option ε)
    (key : String) (cas : Cas) (expiry : Nat) (replicateTo persistTo : Nat) :
    WrapperRun ε Cas :=
  match touch key cas expiry with
  | (cas, _, some err) => ⟨cas, some err, []⟩
  | (cas, mt, none) =>
    ⟨cas, durability ⟨key, cas, mt, replicateTo, persistTo, false⟩,
      [⟨key, cas, mt, replicateTo, persistTo, false⟩]⟩

/-- `RemoveDura` (lines 199-205). -/
def RemoveDura {ε : Type} (remove : String → Cas → Cas × MutationToken × Option ε)
    (durability : DuraCall → Option ε)
    (key : String) (cas : Cas) (replicateTo persistTo : Nat) : WrapperRun ε Cas :=
  match remove key cas with
  | (cas, _, some err) => ⟨cas, some err, []⟩
  | (cas, mt, none) =>
    ⟨cas, durability ⟨key, cas, mt, replicateTo, persistTo, true⟩,
      [⟨key, cas, mt, replicateTo, persistTo, true⟩]⟩

/-- `UpsertDura` (lines 208-214). -/
def UpsertDura {ε V : Type} (upsert : String → V → Nat → Cas × MutationToken × Option ε)
    (durability : DuraCall → Option ε)
    (key : String) (value : V) (expiry : Nat) (replicateTo persistTo : Nat) :
    WrapperRun ε Cas :=
  match upsert key value expiry with
  | (cas, _, some err) => ⟨cas, some err, []⟩
  | (cas, mt, none) =>
    ⟨cas, durability ⟨key, cas, mt, replicateTo, persistTo, false⟩,
      [⟨key, cas, mt, replicateTo, persistTo, false⟩]⟩

/-- `InsertDura` (lines 217-223). -/
def InsertDura {ε V : Type} (insert : String → V → Nat → Cas × MutationToken × Option ε)
    (durability : DuraCall → Option ε)
    (key : String) (value : V) (expiry : Nat) (replicateTo persistTo : Nat) :
    WrapperRun ε Cas :=
  match insert key value expiry with
  | (cas, _, some err) => ⟨cas, some err, []⟩
  | (cas, mt, none) =>
    ⟨cas, durability ⟨key, cas, mt, replicateTo, persistTo, false⟩,
      [⟨key, cas, mt, replicateTo, persistTo, false⟩]⟩

/-- `ReplaceDura` (lines 226-232). -/
def ReplaceDura {ε V : Type}
    (replace : String → V → Cas → Nat → Cas × MutationToken × Option ε)
    (durability : DuraCall → Option ε)
    (key : String) (value : V) (cas : Cas) (expiry : Nat) (replicateTo persistTo : Nat) :
    WrapperRun ε Cas :=
  match replace key value cas expiry with
  | (cas, _, some err) => ⟨cas, some err, []⟩
  | (cas, mt, none) =>
    ⟨cas, durability ⟨key, cas, mt, replicateTo, persistTo, false⟩,
      [⟨key, cas, mt, replicateTo, persistTo, false⟩]⟩

/-- `AppendDura` (lines 235-241). -/
def AppendDura {ε : Type} (append : String → String → Cas × MutationToken × Option ε)
    (durability : DuraCall → Option ε)
    (key value : String) (replicateTo persistTo : Nat) : WrapperRun ε Cas :=
  match append key value with
  | (cas, _, some err) => ⟨cas, some err, []⟩
  | (cas, mt, none) =>
    ⟨cas, durability ⟨key, cas, mt, replicateTo, persistTo, false⟩,
      [⟨key, cas, mt, replicateTo, persistTo, false⟩]⟩

/-- `PrependDura` (lines 244-250). -/
def PrependDura {ε : Type} (prepend : String → String → Cas × MutationToken × Option ε)
    (durability : DuraCall → Option ε)
    (key value : String) (replicateTo persistTo : Nat) : WrapperRun ε Cas :=
  match prepend key value with
  | (cas, _, some err) => ⟨cas, some err, []⟩
  | (cas, mt, none) =>
    ⟨cas, durability ⟨key, cas, mt, replicateTo, persistTo, false⟩,
      [⟨key, cas, mt, replicateTo, persistTo, false⟩]⟩

/-- `CounterDura` (lines 253-259). -/
def CounterDura {ε : Type}
    (counter : String → Int → Int → Nat → Nat × Cas × MutationToken × Option ε)
    (durability : DuraCall → Option ε)
    (key : String) (delta initial : Int) (expiry : Nat) (replicateTo persistTo : Nat) :
    WrapperRun ε (Nat × Cas) :=
  match counter key delta initial expiry with
  | (val, cas, _, some err) => ⟨(val, cas), some err, []⟩
  | (val, cas, mt, none) =>
    ⟨(val, cas), durability ⟨key, cas, mt, replicateTo, persistTo, false⟩,
      [⟨key, cas, mt, replicateTo, persistTo, false⟩]⟩

/-! ## Theorems: the observation callbacks -/

/-- The value sent on `commCh` for each of the four verdicts. -/
theorem packOut_eq (didReplicate didPersist : Bool) :
    packOut didReplicate didPersist =
      (if didReplicate then 1 else 0) ||| (if didPersist then 2 else 0) := by
  cases didReplicate <;> cases didPersist <;> rfl

/-- C6: CAS-based rule, non-delete column. For every node index `repId`, every
`cas` and observed state `Persisted` or `NotPersisted` whose observed CAS
equals `cas`, with `forDelete = false`, the verdict of the callback of
`observeOnceCas` is replicated = (`repId != 0`), persisted =
(state is `Persisted`), and the value sent on `commCh` is
`(repId != 0 ? 1 : 0) | (state == Persisted ? 2 : 0)`. -/
theorem observeOnceCas_nonDelete_match (repId : Int) (cas : Cas) (ks : KeyState)
    (hks : ks = KeyState.Persisted ∨ ks = KeyState.NotPersisted) :
    casVerdict cas false repId ks cas
        = (decide (repId ≠ 0), decide (ks = KeyState.Persisted)) ∧
      observeOnceCas cas false repId ⟨ks, cas, none⟩
        = (if repId ≠ 0 then 1 else 0) ||| (if ks = KeyState.Persisted then 2 else 0) := by
  rcases hks with h | h <;> subst h <;> by_cases hr : repId = 0 <;>
    simp [observeOnceCas, casVerdict, packOut, hr]

/-- Witness of C6: node 1 observing `Persisted` with the expected CAS 7. -/
theorem observeOnceCas_nonDelete_match_witness :
    casVerdict 7 false 1 KeyState.Persisted 7 = (true, true) ∧
      observeOnceCas 7 false 1 ⟨KeyState.Persisted, 7, none⟩ = 3 := by
  have h := observeOnceCas_nonDelete_match 1 7 KeyState.Persisted (Or.inl rfl)
  simpa using h

/-- C7: CAS-based rule, delete column. With `forDelete = true`, for every node
index (the master included), every expected and every observed CAS: a state
that is none of `Persisted`, `NotPersisted`, `Deleted` gives replicated = true,
persisted = true (value 3), and the state `Deleted` gives replicated = true,
persisted = false (value 1). -/
theorem observeOnceCas_delete_column (repId : Int) (cas obsCas : Cas) (ks : KeyState) :
    (ks ≠ KeyState.Persisted → ks ≠ KeyState.NotPersisted → ks ≠ KeyState.Deleted →
        casVerdict cas true repId ks obsCas = (true, true) ∧
        observeOnceCas cas true repId ⟨ks, obsCas, none⟩ = 3) ∧
      casVerdict cas true repId KeyState.Deleted obsCas = (true, false) ∧
      observeOnceCas cas true repId ⟨KeyState.Deleted, obsCas, none⟩ = 1 := by
  refine ⟨?_, ?_, ?_⟩
  · intro h1 h2 h3
    cases ks <;> simp_all [observeOnceCas, casVerdict, packOut]
  · simp [casVerdict]
  · simp [observeOnceCas, casVerdict, packOut]

/-- Witness of C7: the master observing `Unknown` with a different CAS. -/
theorem observeOnceCas_delete_column_witness :
    casVerdict 5 true 0 KeyState.Unknown 9 = (true, true) ∧
      observeOnceCas 5 true 0 ⟨KeyState.Unknown, 9, none⟩ = 3 :=
  (observeOnceCas_delete_column 0 5 9 KeyState.Unknown).1
    (by decide) (by decide) (by decide)

/-- Counterexample to C8 as stated: with `forDelete = true` a node that reports
`Deleted` with a CAS different from the expected one still gives
replicated = true (value 1 on `commCh`). -/
theorem observeOnceCas_mismatch_counterexample :
    (9 : Cas) ≠ 5 ∧ casVerdict 5 true 1 KeyState.Deleted 9 = (true, false) ∧
      observeOnceCas 5 true 1 ⟨KeyState.Deleted, 9, none⟩ = 1 := by
  decide

/-- C8 (amended): if the CAS observed on the node differs from the CAS recorded
at mutation time, then for every node index the CAS-based rule gives
replicated = false, persisted = false (value 0 on `commCh`) whenever
`forDelete = false` or the observed state is `Persisted` or `NotPersisted`. -/
theorem observeOnceCas_mismatch (repId : Int) (cas obsCas : Cas) (ks : KeyState)
    (forDelete : Bool) (hcas : obsCas ≠ cas)
    (hrow : forDelete = false ∨ ks = KeyState.Persisted ∨ ks = KeyState.NotPersisted) :
    casVerdict cas forDelete repId ks obsCas = (false, false) ∧
      observeOnceCas cas forDelete repId ⟨ks, obsCas, none⟩ = 0 := by
  have hv : casVerdict cas forDelete repId ks obsCas = (false, false) := by
    rcases hrow with h | h | h
    · subst h; cases ks <;> simp [casVerdict, hcas]
    · subst h; cases forDelete <;> simp [casVerdict, hcas]
    · subst h; cases forDelete <;> simp [casVerdict, hcas]
  exact ⟨hv, by simp [observeOnceCas, hv, packOut]⟩

/-- Witness of C8 (amended): a replica observing `Persisted` with CAS 9 where 5
is expected. -/
theorem observeOnceCas_mismatch_witness :
    casVerdict 5 false 1 KeyState.Persisted 9 = (false, false) ∧
      observeOnceCas 5 false 1 ⟨KeyState.Persisted, 9, none⟩ = 0 :=
  observeOnceCas_mismatch 1 5 9 KeyState.Persisted false (by decide) (Or.inl rfl)

/-- C9: CAS-based rule, default row. Every input that is none of the four
listed rows (`Persisted` with matching CAS and non-delete, `NotPersisted` with
matching CAS and non-delete, `Deleted` with delete, `Unknown` with delete)
gives replicated = false, persisted = false, value 0. In particular
`Persisted` and `NotPersisted` under `forDelete = true`, and `Deleted` and
`Unknown` under `forDelete = false`, give 0 for any CAS. -/
theorem observeOnceCas_default_row (repId : Int) (cas obsCas : Cas) :
    (∀ (ks : KeyState) (forDelete : Bool),
        ¬ (ks = KeyState.Persisted ∧ obsCas = cas ∧ forDelete = false) →
        ¬ (ks = KeyState.NotPersisted ∧ obsCas = cas ∧ forDelete = false) →
        ¬ (ks = KeyState.Deleted ∧ forDelete = true) →
        ¬ (ks = KeyState.Unknown ∧ forDelete = true) →
        casVerdict cas forDelete repId ks obsCas = (false, false) ∧
        observeOnceCas cas forDelete repId ⟨ks, obsCas, none⟩ = 0) ∧
      observeOnceCas cas true repId ⟨KeyState.Persisted, obsCas, none⟩ = 0 ∧
      observeOnceCas cas true repId ⟨KeyState.NotPersisted, obsCas, none⟩ = 0 ∧
      observeOnceCas cas false repId ⟨KeyState.Deleted, obsCas, none⟩ = 0 ∧
      observeOnceCas cas false repId ⟨KeyState.Unknown, obsCas, none⟩ = 0 := by
  refine ⟨?_, ?_, ?_, ?_, ?_⟩
  · intro ks forDelete h1 h2 h3 h4
    cases ks <;> cases forDelete <;>
      simp_all [observeOnceCas, casVerdict, packOut]
  all_goals simp [observeOnceCas, casVerdict, packOut]

/-- Witness of C9: `Persisted` with a mismatched CAS on a non-delete
confirmation falls into the default row. -/
theorem observeOnceCas_default_row_witness :
    casVerdict 5 false 1 KeyState.Persisted 9 = (false, false) ∧
      observeOnceCas 5 false 1 ⟨KeyState.Persisted, 9, none⟩ = 0 :=
  (observeOnceCas_default_row 1 5 9).1 KeyState.Persisted false
    (by decide) (by decide) (by decide) (by decide)

/-- C10: token-based rule. For every token `mt` and every successfully
observed pair `(currentSeqNo, persistSeqNo)` the callback of
`observeOnceSeqNo` gives replicated = (`currentSeqNo >= mt.SeqNo`) and
persisted = (`persistSeqNo >= mt.SeqNo`), and the value sent on `commCh` is
`(replicated ? 1 : 0) | (persisted ? 2 : 0)`. The node index does not enter;
the callback has no delete flag and no CAS among its inputs, and when
`observeOne` uses it (token with both fields non-zero) the value is the same
for every node index, delete flag, expected CAS and CAS observation. -/
theorem observeOnceSeqNo_rule (mt : MutationToken) (repId : Int)
    (currentSeqNo persistSeqNo : Nat) :
    seqNoVerdict mt currentSeqNo persistSeqNo
        = (decide (currentSeqNo ≥ mt.SeqNo), decide (persistSeqNo ≥ mt.SeqNo)) ∧
      observeOnceSeqNo mt repId ⟨currentSeqNo, persistSeqNo, none⟩
        = (if currentSeqNo ≥ mt.SeqNo then 1 else 0) |||
          (if persistSeqNo ≥ mt.SeqNo then 2 else 0) ∧
      (∀ repId2 : Int, observeOnceSeqNo mt repId2 ⟨currentSeqNo, persistSeqNo, none⟩
        = observeOnceSeqNo mt repId ⟨currentSeqNo, persistSeqNo, none⟩) ∧
      (mt.VbUuid ≠ 0 → mt.SeqNo ≠ 0 →
        ∀ (cas : Cas) (forDelete : Bool) (repId2 : Int) (cr : CasReply),
          observeOnce mt cas forDelete repId2 ⟨cr, ⟨currentSeqNo, persistSeqNo, none⟩⟩
            = (if currentSeqNo ≥ mt.SeqNo then 1 else 0) |||
              (if persistSeqNo ≥ mt.SeqNo then 2 else 0)) := by
  have hval : ∀ rid : Int, observeOnceSeqNo mt rid ⟨currentSeqNo, persistSeqNo, none⟩
      = (if currentSeqNo ≥ mt.SeqNo then 1 else 0) |||
        (if persistSeqNo ≥ mt.SeqNo then 2 else 0) := by
    intro rid
    simp [observeOnceSeqNo, seqNoVerdict, packOut_eq]
  refine ⟨rfl, hval repId, fun _ => rfl, ?_⟩
  intro h1 h2 cas forDelete repId2 cr
  unfold observeOnce
  rw [if_pos ⟨h1, h2⟩]
  exact hval repId2

/-- Witness of C10: token with sequence number 5, the node has applied 6 and
flushed 4: replicated, not persisted, value 1, also through `observeOne`'s
dispatch with a delete flag and an unrelated CAS observation. -/
theorem observeOnceSeqNo_rule_witness :
    observeOnceSeqNo ⟨1, 5⟩ 0 ⟨6, 4, none⟩ = 1 ∧
      observeOnce ⟨1, 5⟩ 7 true 0 ⟨⟨KeyState.Deleted, 9, none⟩, ⟨6, 4, none⟩⟩ = 1 :=
  have h := observeOnceSeqNo_rule ⟨1, 5⟩ 0 6 4
  ⟨h.2.1.trans (by decide),
    (h.2.2.2 (by decide) (by decide) 7 true 0 ⟨KeyState.Deleted, 9, none⟩).trans (by decide)⟩

/-! ## Theorems: the orchestrator `durability` -/

theorem countersAfter_append (c : Counters) (l : List Signal) (a : Signal) :
    countersAfter c (l ++ [a]) = receive (countersAfter c l) a := by
  simp [countersAfter, List.foldl_append]

theorem countersAfter_cons (c : Counters) (a : Signal) (l : List Signal) :
    countersAfter c (a :: l) = countersAfter (receive c a) l := rfl

theorem trueReplicas_le_length (sigs : List Signal) : trueReplicas sigs ≤ sigs.length :=
  List.count_le_length _ _

theorem truePersists_le_length (sigs : List Signal) : truePersists sigs ≤ sigs.length :=
  List.count_le_length _ _

/-- As long as fewer than `2^63` signals have been received the counters are
exact: no increment has wrapped. -/
theorem countersAfter_zero (sigs : List Signal)
    (h : sigs.length < 9223372036854775808) :
    countersAfter ⟨0, 0, 0⟩ sigs
      = ⟨(sigs.length : Int), trueReplicas sigs, truePersists sigs⟩ := by
  induction sigs using List.reverseRecOn with
  | nil => rfl
  | append_singleton l a ih =>
    simp only [List.length_append, List.length_singleton] at h
    have hl : l.length < 9223372036854775808 := by omega
    have h1 := trueReplicas_le_length l
    have h2 := truePersists_le_length l
    rw [countersAfter_append, ih hl]
    cases a with
    | replica v =>
      cases v <;>
        simp [receive, trueReplicas, truePersists, wrapInt, wrapUint, List.count_append] <;>
        simp only [trueReplicas, truePersists] at h1 h2 <;> omega
    | persist v =>
      cases v <;>
        simp [receive, trueReplicas, truePersists, wrapInt, wrapUint, List.count_append] <;>
        simp only [trueReplicas, truePersists] at h1 h2 <;> omega

/-- The loop returns at the first signal after which `checkQuorum` decides,
and is blocked when the signals run out before that. -/
theorem accumulate_spec (n : Int) (rT pT : Nat) (ps : List Int) :
    ∀ (sigs : List Signal) (c : Counters) (k : Nat),
    ∃ m, m ≤ sigs.length ∧
      (accumulate n rT pT ps c k sigs).consumed = k + m ∧
      (accumulate n rT pT ps c k sigs).counters = countersAfter c (sigs.take m) ∧
      (accumulate n rT pT ps c k sigs).pollers = ps ∧
      (∀ j, 1 ≤ j → j < m →
        checkQuorum n rT pT (countersAfter c (sigs.take j)) = none) ∧
      ((accumulate n rT pT ps c k sigs).outcome = Outcome.blocked →
        m = sigs.length ∧
        (1 ≤ m → checkQuorum n rT pT (countersAfter c (sigs.take m)) = none)) ∧
      (∀ e, (accumulate n rT pT ps c k sigs).outcome = Outcome.returned e →
        1 ≤ m ∧ checkQuorum n rT pT (countersAfter c (sigs.take m)) = some e) := by
  intro sigs
  induction sigs with
  | nil =>
    intro c k
    exact ⟨0, by simp [accumulate, countersAfter]⟩
  | cons sig rest ih =>
    intro c k
    cases hq : checkQuorum n rT pT (receive c sig) with
    | some e =>
      refine ⟨1, ?_⟩
      simp only [accumulate, hq]
      refine ⟨by simp, trivial, by simp [countersAfter], trivial, ?_, ?_, ?_⟩
      · intro j h1 h2; omega
      · intro h; cases h
      · intro e2 h
        injection h with h
        subst h
        exact ⟨le_refl _, by simpa [countersAfter] using hq⟩
    | none =>
      obtain ⟨m, hm, h1, h2, h3, h4, h5, h6⟩ := ih (receive c sig) (k + 1)
      refine ⟨m + 1, ?_⟩
      simp only [accumulate, hq]
      refine ⟨by simp; omega, by omega, by simpa [countersAfter_cons] using h2, h3, ?_, ?_, ?_⟩
      · intro j hj1 hj2
        obtain ⟨i, rfl⟩ : ∃ i, j = i + 1 := ⟨j - 1, by omega⟩
        rw [List.take_succ_cons, countersAfter_cons]
        by_cases hi : i = 0
        · subst hi; simpa [countersAfter] using hq
        · exact h4 i (by omega) (by omega)
      · intro hb
        obtain ⟨hb1, hb2⟩ := h5 hb
        refine ⟨by simp [hb1], fun _ => ?_⟩
        rw [List.take_succ_cons, countersAfter_cons]
        by_cases hi : m = 0
        · subst hi; simpa [countersAfter] using hq
        · exact hb2 (by omega)
      · intro e he
        obtain ⟨he1, he2⟩ := h6 e he
        refine ⟨by omega, ?_⟩
        rw [List.take_succ_cons, countersAfter_cons]
        exact he2

/-- The test of lines 181-185 on exact counters, for a cluster of
`1 ≤ numServers < 2^62` nodes. -/
theorem checkQuorum_exact (n : Int) (rT pT : Nat) (l : List Signal)
    (hn0 : 1 ≤ n) (hn1 : n < 4611686018427387904)
    (hl : l.length < 9223372036854775808) :
    checkQuorum n rT pT (countersAfter ⟨0, 0, 0⟩ l)
      = if quorumMet rT pT l then some none
        else if (l.length : Int) = 2 * n - 1 then some (some errNotInTime)
        else none := by
  have hw : wrapInt (wrapInt (n * 2) - 1) = 2 * n - 1 := by
    unfold wrapInt; omega
  rw [countersAfter_zero l hl]
  simp only [checkQuorum, hw, quorumMet]

/-- The run of the accumulation loop from zeroed counters, in terms of the
signals received: it stops at the first signal after which the quorum is met
or the number of signals is `2 * numServers - 1`. -/
theorem accumulate_run (n : Int) (rT pT : Nat) (ps : List Int) (sigs : List Signal)
    (hn0 : 1 ≤ n) (hn1 : n < 4611686018427387904) :
    ∃ m, m ≤ sigs.length ∧ (m : Int) ≤ 2 * n - 1 ∧
      (accumulate n rT pT ps ⟨0, 0, 0⟩ 0 sigs).consumed = m ∧
      (accumulate n rT pT ps ⟨0, 0, 0⟩ 0 sigs).counters
        = ⟨(m : Int), trueReplicas (sigs.take m), truePersists (sigs.take m)⟩ ∧
      (accumulate n rT pT ps ⟨0, 0, 0⟩ 0 sigs).pollers = ps ∧
      (∀ j, 1 ≤ j → j < m →
        ¬ quorumMet rT pT (sigs.take j) ∧ (j : Int) ≠ 2 * n - 1) ∧
      ((accumulate n rT pT ps ⟨0, 0, 0⟩ 0 sigs).outcome = Outcome.blocked →
        m = sigs.length ∧
        (1 ≤ m → ¬ quorumMet rT pT (sigs.take m) ∧ (m : Int) ≠ 2 * n - 1)) ∧
      ((accumulate n rT pT ps ⟨0, 0, 0⟩ 0 sigs).outcome = Outcome.returned none →
        1 ≤ m ∧ quorumMet rT pT (sigs.take m)) ∧
      (∀ e, (accumulate n rT pT ps ⟨0, 0, 0⟩ 0 sigs).outcome = Outcome.returned (some e) →
        e = errNotInTime ∧ ¬ quorumMet rT pT (sigs.take m) ∧ (m : Int) = 2 * n - 1) := by
  obtain ⟨m, hm, h1, h2, h3, h4, h5, h6⟩ := accumulate_spec n rT pT ps sigs ⟨0, 0, 0⟩ 0
  -- the loop cannot run past signal number `2 * n - 1`
  have hlim : (m : Int) ≤ 2 * n - 1 := by
    by_contra hcon
    have hL : (2 * n - 1).toNat < m := by omega
    have hlen : (sigs.take (2 * n - 1).toNat).length = (2 * n - 1).toNat := by
      rw [List.length_take]; omega
    have hq := h4 (2 * n - 1).toNat (by omega) hL
    rw [checkQuorum_exact n rT pT _ hn0 hn1 (by rw [hlen]; omega)] at hq
    rw [hlen] at hq
    have : ((2 * n - 1).toNat : Int) = 2 * n - 1 := by omega
    split_ifs at hq
  have hlenj : ∀ j, j ≤ m → (sigs.take j).length = j := by
    intro j hj; rw [List.length_take]; omega
  have hex : ∀ j, j ≤ m →
      checkQuorum n rT pT (countersAfter ⟨0, 0, 0⟩ (sigs.take j))
        = if quorumMet rT pT (sigs.take j) then some none
          else if (j : Int) = 2 * n - 1 then some (some errNotInTime)
          else none := by
    intro j hj
    have := checkQuorum_exact n rT pT (sigs.take j) hn0 hn1 (by rw [hlenj j hj]; omega)
    rwa [hlenj j hj] at this
  have hdec : ∀ j, j ≤ m →
      checkQuorum n rT pT (countersAfter ⟨0, 0, 0⟩ (sigs.take j)) = none →
      ¬ quorumMet rT pT (sigs.take j) ∧ (j : Int) ≠ 2 * n - 1 := by
    intro j hj hq
    rw [hex j hj] at hq
    split_ifs at hq with ha hb
    exact ⟨ha, hb⟩
  refine ⟨m, hm, hlim, by simpa using h1, ?_, h3, ?_, ?_, ?_, ?_⟩
  · rw [h2, countersAfter_zero _ (by rw [hlenj m le_rfl]; omega), hlenj m le_rfl]
  · intro j hj1 hj2
    exact hdec j (by omega) (h4 j hj1 hj2)
  · intro hb
    obtain ⟨hb1, hb2⟩ := h5 hb
    exact ⟨hb1, fun h => hdec m le_rfl (hb2 h)⟩
  · intro hr
    obtain ⟨hr1, hr2⟩ := h6 none hr
    rw [hex m le_rfl] at hr2
    refine ⟨hr1, ?_⟩
    by_contra ha
    rw [if_neg ha] at hr2
    split_ifs at hr2
    simp at hr2
  · intro e hr
    obtain ⟨hr1, hr2⟩ := h6 (some e) hr
    rw [hex m le_rfl] at hr2
    by_cases ha : quorumMet rT pT (sigs.take m)
    · rw [if_pos ha] at hr2; simp at hr2
    · rw [if_neg ha] at hr2
      by_cases hb : (m : Int) = 2 * n - 1
      · rw [if_pos hb] at hr2
        simp only [Option.some.injEq] at hr2
        exact ⟨hr2.symm, ha, hb⟩
      · rw [if_neg hb] at hr2; simp at hr2

/-- The test of line 150 for a cluster of `numReplicas + 1` nodes. -/
theorem configCheck_iff (numReplicas : Int) (rT pT : Nat)
    (h0 : 0 ≤ numReplicas) (h1 : numReplicas < 9223372036854775807) :
    (rT > wrapUint (wrapInt (wrapInt (numReplicas + 1) - 1)) ∨
        pT > wrapUint (wrapInt (numReplicas + 1)))
      ↔ ((rT : Int) > (numReplicas + 1) - 1 ∨ (pT : Int) > numReplicas + 1) := by
  unfold wrapUint wrapInt
  omega

theorem wrapInt_numServers (numReplicas : Int)
    (h0 : 0 ≤ numReplicas) (h1 : numReplicas < 9223372036854775807) :
    wrapInt (numReplicas + 1) = numReplicas + 1 := by
  unfold wrapInt
  omega

/-- With a requirement that passes line 150, `durability` is its loop. -/
theorem durability_valid (numReplicas : Int) (rT pT : Nat) (sigs : List Signal)
    (h0 : 0 ≤ numReplicas) (h1 : numReplicas < 9223372036854775807)
    (hv : ¬ ((rT : Int) > (numReplicas + 1) - 1 ∨ (pT : Int) > numReplicas + 1)) :
    durability numReplicas rT pT sigs
      = accumulate (numReplicas + 1) rT pT (startPollers (numReplicas + 1))
          ⟨0, 0, 0⟩ 0 sigs := by
  have hc := configCheck_iff numReplicas rT pT h0 h1
  unfold durability
  simp only [wrapInt_numServers numReplicas h0 h1] at hc ⊢
  rw [if_neg (fun h => hv (hc.mp h))]

/-- With a requirement that fails line 150, `durability` returns at once. -/
theorem durability_invalid (numReplicas : Int) (rT pT : Nat) (sigs : List Signal)
    (h0 : 0 ≤ numReplicas) (h1 : numReplicas < 9223372036854775807)
    (hv : (rT : Int) > (numReplicas + 1) - 1 ∨ (pT : Int) > numReplicas + 1) :
    durability numReplicas rT pT sigs
      = { pollers := [], counters := ⟨0, 0, 0⟩, consumed := 0,
          outcome := Outcome.returned (some errNotEnoughReplicas) } := by
  have hc := configCheck_iff numReplicas rT pT h0 h1
  unfold durability
  simp only [wrapInt_numServers numReplicas h0 h1] at hc ⊢
  rw [if_pos (hc.mpr hv)]

theorem checkQuorum_some (n : Int) (rT pT : Nat) (c : Counters) (e : Option clientError)
    (h : checkQuorum n rT pT c = some e) : e = none ∨ e = some errNotInTime := by
  unfold checkQuorum at h
  split_ifs at h <;> simp at h <;> simp [← h]

/-- The loop never returns the error of line 151. -/
theorem accumulate_outcome_ne (n : Int) (rT pT : Nat) (ps : List Int) (c : Counters)
    (k : Nat) (sigs : List Signal) :
    (accumulate n rT pT ps c k sigs).outcome
      ≠ Outcome.returned (some errNotEnoughReplicas) := by
  intro h
  obtain ⟨m, -, -, -, -, -, -, h6⟩ := accumulate_spec n rT pT ps sigs c k
  obtain ⟨-, hq⟩ := h6 _ h
  rcases checkQuorum_some n rT pT _ _ hq with h | h
  · cases h
  · exact absurd h (by decide)

/-- C1: for a cluster of `numServers = NumReplicas() + 1 >= 1` nodes and every
`replicaTo`, `persistTo`, `durability` returns the configuration error
"Not enough replicas to match durability requirements." if and only if
`replicaTo > numServers - 1` or `persistTo > numServers`; in that case no
poller was started, no signal was awaited and the number of observation calls
is zero, whatever the nodes would have answered. -/
theorem durability_configError (numReplicas : Int) (replicaTo persistTo : Nat)
    (sigs : List Signal)
    (h0 : 0 ≤ numReplicas) (h1 : numReplicas < 9223372036854775807) :
    ((durability numReplicas replicaTo persistTo sigs).outcome
          = Outcome.returned (some errNotEnoughReplicas)
        ↔ ((replicaTo : Int) > (numReplicas + 1) - 1 ∨
            (persistTo : Int) > numReplicas + 1)) ∧
      ((durability numReplicas replicaTo persistTo sigs).outcome
          = Outcome.returned (some errNotEnoughReplicas) →
        (durability numReplicas replicaTo persistTo sigs).pollers = [] ∧
        (durability numReplicas replicaTo persistTo sigs).consumed = 0 ∧
        ∀ (mt : MutationToken) (cas : Cas) (forDelete : Bool) (rounds : Int → List Round),
          observeCallsOf (durability numReplicas replicaTo persistTo sigs)
            mt cas forDelete rounds = 0) := by
  have hiff : (durability numReplicas replicaTo persistTo sigs).outcome
          = Outcome.returned (some errNotEnoughReplicas)
        ↔ ((replicaTo : Int) > (numReplicas + 1) - 1 ∨
            (persistTo : Int) > numReplicas + 1) := by
    constructor
    · intro h
      by_contra hv
      rw [durability_valid numReplicas replicaTo persistTo sigs h0 h1 hv] at h
      exact accumulate_outcome_ne _ _ _ _ _ _ _ h
    · intro hv
      rw [durability_invalid numReplicas replicaTo persistTo sigs h0 h1 hv]
  refine ⟨hiff, fun h => ?_⟩
  rw [durability_invalid numReplicas replicaTo persistTo sigs h0 h1 (hiff.mp h)]
  exact ⟨rfl, rfl, fun _ _ _ _ => rfl⟩

/-- Witness of C1: two servers (one replica) and `replicaTo = 2`. -/
theorem durability_configError_witness :
    (durability 1 2 0 [Signal.replica true]).outcome
        = Outcome.returned (some errNotEnoughReplicas) ∧
      (durability 1 2 0 [Signal.replica true]).pollers = [] ∧
      (durability 1 2 0 [Signal.replica true]).consumed = 0 ∧
      ∀ (mt : MutationToken) (cas : Cas) (forDelete : Bool) (rounds : Int → List Round),
        observeCallsOf (durability 1 2 0 [Signal.replica true]) mt cas forDelete rounds = 0 :=
  have h := durability_configError 1 2 0 [Signal.replica true] (by decide) (by decide)
  have hc := h.1.mpr (Or.inl (by decide))
  ⟨hc, h.2 hc⟩


/-- Once the loop has returned, its run is fixed by the signals it consumed. -/
theorem accumulate_agree (n : Int) (rT pT : Nat) (ps : List Int) :
    ∀ (sigs : List Signal) (c : Counters) (k : Nat) (e : Option clientError),
      (accumulate n rT pT ps c k sigs).outcome = Outcome.returned e →
      ∀ sigs2 : List Signal,
        sigs2.take ((accumulate n rT pT ps c k sigs).consumed - k)
          = sigs.take ((accumulate n rT pT ps c k sigs).consumed - k) →
        accumulate n rT pT ps c k sigs2 = accumulate n rT pT ps c k sigs := by
  intro sigs
  induction sigs with
  | nil =>
    intro c k e h
    simp [accumulate] at h
  | cons sig rest ih =>
    intro c k e h sigs2 ht
    cases hq : checkQuorum n rT pT (receive c sig) with
    | some e2 =>
      simp only [accumulate, hq] at h ht ⊢
      have h1 : k + 1 - k = 1 := by omega
      rw [h1] at ht
      cases sigs2 with
      | nil => simp at ht
      | cons a t =>
        simp only [List.take_succ_cons, List.take_zero, List.cons.injEq, and_true] at ht
        subst ht
        simp only [accumulate, hq]
    | none =>
      simp only [accumulate, hq] at h ht ⊢
      obtain ⟨m, -, hm, -, -, -, -, h6⟩ :=
        accumulate_spec n rT pT ps rest (receive c sig) (k + 1)
      obtain ⟨hm1, -⟩ := h6 e h
      have h1 : (accumulate n rT pT ps (receive c sig) (k + 1) rest).consumed - k
          = ((accumulate n rT pT ps (receive c sig) (k + 1) rest).consumed - (k + 1)) + 1 := by
        omega
      rw [h1] at ht
      cases sigs2 with
      | nil => simp at ht
      | cons a t =>
        simp only [List.take_succ_cons, List.cons.injEq] at ht
        obtain ⟨ha, ht⟩ := ht
        subst ha
        simp only [accumulate, hq]
        exact ih _ (k + 1) e h t ht

/-- C2: for a valid requirement and every sequence of signals, nothing is
decided before the first signal; `durability` returns success (nil) right
after the `k`-th signal exactly when `k >= 1` is the first position at which
the number of true replication signals is at least `replicaTo` and the number
of true persistence signals is at least `persistTo`, and it has not returned
before (the run over the first `k - 1` signals is still blocked); the run then
depends on the first `k` signals only, and success is never returned while a
count is below its threshold. -/
theorem durability_success (numReplicas : Int) (replicaTo persistTo : Nat)
    (sigs : List Signal) (k : Nat)
    (h0 : 0 ≤ numReplicas) (h1 : numReplicas < 4611686018427387903)
    (hv : (replicaTo : Int) ≤ (numReplicas + 1) - 1 ∧ (persistTo : Int) ≤ numReplicas + 1) :
    (durability numReplicas replicaTo persistTo []).outcome = Outcome.blocked ∧
    (((durability numReplicas replicaTo persistTo sigs).outcome = Outcome.returned none ∧
        (durability numReplicas replicaTo persistTo sigs).consumed = k)
      ↔ (1 ≤ k ∧ k ≤ sigs.length ∧
          quorumMet replicaTo persistTo (sigs.take k) ∧
          (∀ j, 1 ≤ j → j < k → ¬ quorumMet replicaTo persistTo (sigs.take j)) ∧
          (durability numReplicas replicaTo persistTo (sigs.take (k - 1))).outcome
            = Outcome.blocked)) ∧
    ((durability numReplicas replicaTo persistTo sigs).outcome = Outcome.returned none →
      ∀ sigs2 : List Signal,
        sigs2.take (durability numReplicas replicaTo persistTo sigs).consumed
          = sigs.take (durability numReplicas replicaTo persistTo sigs).consumed →
        durability numReplicas replicaTo persistTo sigs2
          = durability numReplicas replicaTo persistTo sigs) ∧
    ((durability numReplicas replicaTo persistTo sigs).outcome = Outcome.returned none →
      trueReplicas (sigs.take (durability numReplicas replicaTo persistTo sigs).consumed)
          ≥ replicaTo ∧
        truePersists (sigs.take (durability numReplicas replicaTo persistTo sigs).consumed)
          ≥ persistTo) := by
  have h1b : numReplicas < 9223372036854775807 := by omega
  have hvn : ¬ ((replicaTo : Int) > (numReplicas + 1) - 1 ∨
      (persistTo : Int) > numReplicas + 1) := by omega
  have hdv := fun l => durability_valid numReplicas replicaTo persistTo l h0 h1b hvn
  have hrun := fun l => accumulate_run (numReplicas + 1) replicaTo persistTo
    (startPollers (numReplicas + 1)) l (by omega) (by omega)
  simp only [hdv]
  obtain ⟨m, hm, hlim, hc, hcnt, -, hbefore, hblk, hsucc, hfail⟩ := hrun sigs
  refine ⟨rfl, ?_, ?_, ?_⟩
  · constructor
    · rintro ⟨ho, hk⟩
      rw [hc] at hk
      subst hk
      obtain ⟨hm1, hmet⟩ := hsucc ho
      refine ⟨hm1, hm, hmet, fun j hj1 hj2 => (hbefore j hj1 hj2).1, ?_⟩
      -- the run over the first `m - 1` signals has not returned
      obtain ⟨m2, hm2, -, -, -, -, -, -, hsucc2, hfail2⟩ := hrun (sigs.take (m - 1))
      have hlen2 : (sigs.take (m - 1)).length = m - 1 := by
        rw [List.length_take]; omega
      have htt : (sigs.take (m - 1)).take m2 = sigs.take m2 := by
        rw [List.take_take]; congr 1; omega
      cases ho2 : (accumulate (numReplicas + 1) replicaTo persistTo
          (startPollers (numReplicas + 1)) ⟨0, 0, 0⟩ 0 (sigs.take (m - 1))).outcome with
      | blocked => rfl
      | returned e =>
        exfalso
        cases e with
        | none =>
          obtain ⟨ha, hb⟩ := hsucc2 ho2
          rw [htt] at hb
          exact (hbefore m2 ha (by omega)).1 hb
        | some e =>
          obtain ⟨-, -, hb⟩ := hfail2 e ho2
          have hpos : 1 ≤ m2 := by omega
          exact (hbefore m2 hpos (by omega)).2 hb
    · rintro ⟨hk1, hk2, hmet, hfirst, hblk2⟩
      obtain ⟨m2, hm2, -, -, -, -, hbefore2, hblk2b, -, -⟩ := hrun (sigs.take (k - 1))
      obtain ⟨hm2eq, hund2⟩ := hblk2b hblk2
      have hlen2 : (sigs.take (k - 1)).length = k - 1 := by
        rw [List.length_take]; omega
      rw [hlen2] at hm2eq
      subst hm2eq
      -- no position `j ≤ k - 1` is `2 * numServers - 1`
      have hnolim : ∀ j, 1 ≤ j → j ≤ k - 1 → (j : Int) ≠ 2 * (numReplicas + 1) - 1 := by
        intro j hj1 hj2
        rcases Nat.lt_or_ge j (k - 1) with hlt | hge
        · exact (hbefore2 j hj1 hlt).2
        · have : j = k - 1 := by omega
          subst this
          exact (hund2 hj1).2
      have hmk : m = k := by
        rcases Nat.lt_trichotomy m k with hlt | heq | hgt
        · exfalso
          cases ho : (accumulate (numReplicas + 1) replicaTo persistTo
              (startPollers (numReplicas + 1)) ⟨0, 0, 0⟩ 0 sigs).outcome with
          | blocked =>
            have := (hblk ho).1
            omega
          | returned e =>
            cases e with
            | none =>
              obtain ⟨ha, hb⟩ := hsucc ho
              exact hfirst m ha hlt hb
            | some e =>
              obtain ⟨-, -, hb⟩ := hfail e ho
              have hpos : 1 ≤ m := by omega
              exact hnolim m hpos (by omega) hb
        · exact heq
        · exact absurd hmet (hbefore k hk1 hgt).1
      subst hmk
      refine ⟨?_, hc⟩
      cases ho : (accumulate (numReplicas + 1) replicaTo persistTo
          (startPollers (numReplicas + 1)) ⟨0, 0, 0⟩ 0 sigs).outcome with
      | blocked => exact absurd hmet ((hblk ho).2 hk1).1
      | returned e =>
        cases e with
        | none => rfl
        | some e => exact absurd hmet (hfail e ho).2.1
  · intro ho sigs2 ht
    have := accumulate_agree (numReplicas + 1) replicaTo persistTo
      (startPollers (numReplicas + 1)) sigs ⟨0, 0, 0⟩ 0 none ho sigs2
    simpa using this ht
  · intro ho
    rw [hc]
    exact (hsucc ho).2

/-- Witness of C2: three servers, `replicaTo = 1`, `persistTo = 1` and the
signals (replica: true), (persist: false), (persist: true): success is
returned exactly after the third signal, not after the first or the second. -/
theorem durability_success_witness :
    (durability 2 1 1
        [Signal.replica true, Signal.persist false, Signal.persist true]).outcome
      = Outcome.returned none ∧
    (durability 2 1 1
        [Signal.replica true, Signal.persist false, Signal.persist true]).consumed = 3 ∧
    (durability 2 1 1 [Signal.replica true]).outcome = Outcome.blocked ∧
    (durability 2 1 1 [Signal.replica true, Signal.persist false]).outcome
      = Outcome.blocked :=
  have h := (durability_success 2 1 1
    [Signal.replica true, Signal.persist false, Signal.persist true] 3
    (by decide) (by decide) (by decide)).2.1
  have hr := h.mpr (by decide)
  ⟨hr.1, hr.2, by decide, by decide⟩


/-- C3 (the code at the failing input): one server, `replicaTo = 0`,
`persistTo = 1`, signals (replica: true), (persist: true). The expected total
is `2 * 1 = 2` signals and both thresholds are met by them, yet `durability`
returns "Failed to meet durability requirements in time." after the first
signal, because line 183 compares `results` with `numServers * 2 - 1`. -/
theorem durability_notInTime_one_short :
    (durability 0 0 1 [Signal.replica true, Signal.persist true]).outcome
      = Outcome.returned (some errNotInTime) ∧
    (durability 0 0 1 [Signal.replica true, Signal.persist true]).consumed = 1 ∧
    (durability 0 0 1 [Signal.replica true, Signal.persist true]).consumed < 2 * 1 ∧
    quorumMet 0 1 [Signal.replica true, Signal.persist true] := by
  decide

/-- C5: for a valid requirement, the counters of `durability` are those
reached by receiving the signals it consumed, and after any number `j` of
consumed signals `replicas` is the number of true values received on the
replication channel, `persists` the number of true values received on the
persistence channel and `results` is `j`. Each signal adds one to `results`;
a true signal adds exactly one to its own counter and leaves the other
unchanged, a false signal changes neither, and no counter decreases. -/
theorem durability_counters (numReplicas : Int) (replicaTo persistTo : Nat)
    (sigs : List Signal)
    (h0 : 0 ≤ numReplicas) (h1 : numReplicas < 4611686018427387903)
    (hv : (replicaTo : Int) ≤ (numReplicas + 1) - 1 ∧ (persistTo : Int) ≤ numReplicas + 1) :
    (durability numReplicas replicaTo persistTo sigs).consumed ≤ sigs.length ∧
    (durability numReplicas replicaTo persistTo sigs).counters
      = countersAfter ⟨0, 0, 0⟩
          (sigs.take (durability numReplicas replicaTo persistTo sigs).consumed) ∧
    (∀ j, j ≤ (durability numReplicas replicaTo persistTo sigs).consumed →
      countersAfter ⟨0, 0, 0⟩ (sigs.take j)
        = ⟨(j : Int), trueReplicas (sigs.take j), truePersists (sigs.take j)⟩) ∧
    (∀ (j : Nat) (sig : Signal),
      j < (durability numReplicas replicaTo persistTo sigs).consumed →
      sigs[j]? = some sig →
      countersAfter ⟨0, 0, 0⟩ (sigs.take (j + 1))
        = receive (countersAfter ⟨0, 0, 0⟩ (sigs.take j)) sig ∧
      (receive (countersAfter ⟨0, 0, 0⟩ (sigs.take j)) sig).results
        = (countersAfter ⟨0, 0, 0⟩ (sigs.take j)).results + 1 ∧
      (countersAfter ⟨0, 0, 0⟩ (sigs.take j)).replicas
        ≤ (receive (countersAfter ⟨0, 0, 0⟩ (sigs.take j)) sig).replicas ∧
      (countersAfter ⟨0, 0, 0⟩ (sigs.take j)).persists
        ≤ (receive (countersAfter ⟨0, 0, 0⟩ (sigs.take j)) sig).persists ∧
      (sig = Signal.replica true →
        (receive (countersAfter ⟨0, 0, 0⟩ (sigs.take j)) sig).replicas
          = (countersAfter ⟨0, 0, 0⟩ (sigs.take j)).replicas + 1 ∧
        (receive (countersAfter ⟨0, 0, 0⟩ (sigs.take j)) sig).persists
          = (countersAfter ⟨0, 0, 0⟩ (sigs.take j)).persists) ∧
      (sig = Signal.persist true →
        (receive (countersAfter ⟨0, 0, 0⟩ (sigs.take j)) sig).persists
          = (countersAfter ⟨0, 0, 0⟩ (sigs.take j)).persists + 1 ∧
        (receive (countersAfter ⟨0, 0, 0⟩ (sigs.take j)) sig).replicas
          = (countersAfter ⟨0, 0, 0⟩ (sigs.take j)).replicas) ∧
      (sig = Signal.replica false ∨ sig = Signal.persist false →
        (receive (countersAfter ⟨0, 0, 0⟩ (sigs.take j)) sig).replicas
          = (countersAfter ⟨0, 0, 0⟩ (sigs.take j)).replicas ∧
        (receive (countersAfter ⟨0, 0, 0⟩ (sigs.take j)) sig).persists
          = (countersAfter ⟨0, 0, 0⟩ (sigs.take j)).persists)) := by
  have h1b : numReplicas < 9223372036854775807 := by omega
  have hvn : ¬ ((replicaTo : Int) > (numReplicas + 1) - 1 ∨
      (persistTo : Int) > numReplicas + 1) := by omega
  rw [durability_valid numReplicas replicaTo persistTo sigs h0 h1b hvn]
  obtain ⟨m, hm, hlim, hc, hcnt, -, -, -, -, -⟩ :=
    accumulate_run (numReplicas + 1) replicaTo persistTo
      (startPollers (numReplicas + 1)) sigs (by omega) (by omega)
  obtain ⟨m2, -, hc2, hcnt2, -⟩ :=
    accumulate_spec (numReplicas + 1) replicaTo persistTo
      (startPollers (numReplicas + 1)) sigs ⟨0, 0, 0⟩ 0
  have hmm : m2 = m := by omega
  subst hmm
  rw [hc]
  have hexact : ∀ j, j ≤ m2 → countersAfter ⟨0, 0, 0⟩ (sigs.take j)
      = ⟨(j : Int), trueReplicas (sigs.take j), truePersists (sigs.take j)⟩ := by
    intro j hj
    have hlen : (sigs.take j).length = j := by rw [List.length_take]; omega
    have := countersAfter_zero (sigs.take j) (by rw [hlen]; omega)
    rwa [hlen] at this
  refine ⟨hm, hcnt2, hexact, ?_⟩
  intro j sig hj hsig
  have hstep : countersAfter ⟨0, 0, 0⟩ (sigs.take (j + 1))
      = receive (countersAfter ⟨0, 0, 0⟩ (sigs.take j)) sig := by
    rw [List.take_succ, hsig]
    exact countersAfter_append _ _ _
  have e1 := hexact (j + 1) (by omega)
  rw [hstep] at e1
  have e0 := hexact j (by omega)
  have htk : sigs.take (j + 1) = sigs.take j ++ [sig] := by
    rw [List.take_succ, hsig]; rfl
  refine ⟨hstep, ?_⟩
  rw [e1, e0, htk]
  simp only [trueReplicas, truePersists, List.count_append]
  refine ⟨by push_cast; ring, by omega, by omega, ?_, ?_, ?_⟩
  · rintro rfl; simp
  · rintro rfl; simp
  · rintro (rfl | rfl) <;> simp

/-- Witness of C5: three servers, thresholds 2 and 2, after the signals
(replica: true), (persist: false), (persist: true). -/
theorem durability_counters_witness :
    (durability 2 2 2
        [Signal.replica true, Signal.persist false, Signal.persist true]).counters
      = ⟨3, 1, 1⟩ :=
  have h := durability_counters 2 2 2
    [Signal.replica true, Signal.persist false, Signal.persist true]
    (by decide) (by decide) (by decide)
  h.2.1.trans (by decide)


/-! ## Theorems: the poller `observeOne` -/

theorem replicaSends_append (tr : List Action) (a : Action) :
    replicaSends (tr ++ [a])
      = replicaSends tr + (match a with | Action.sendReplica _ => 1 | _ => 0) := by
  cases a <;> simp [replicaSends, List.countP_append]

theorem persistSends_append (tr : List Action) (a : Action) :
    persistSends (tr ++ [a])
      = persistSends tr + (match a with | Action.sendPersist _ => 1 | _ => 0) := by
  cases a <;> simp [persistSends, List.countP_append]

theorem failMe_sends (s : Poller) (h : s.SendsMatch) :
    (failMe s).SendsMatch ∧ (failMe s).sentReplicated = true ∧
      (failMe s).sentPersisted = true ∧ (failMe s).returned = s.returned ∧
      (failMe s).round = s.round := by
  obtain ⟨sr, sp, rd, tr, rt⟩ := s
  obtain ⟨h1, h2⟩ := h
  cases sr <;> cases sp <;>
    simp_all [failMe, Poller.emit, Poller.SendsMatch, replicaSends, persistSends,
      List.countP_append]

theorem gotValue_sends (s : Poller) (val : Nat) (h : s.SendsMatch) :
    (gotValue s val).SendsMatch ∧ (gotValue s val).returned = s.returned := by
  obtain ⟨sr, sp, rd, tr, rt⟩ := s
  obtain ⟨h1, h2⟩ := h
  by_cases hb1 : (val &&& 1) = 0 <;> by_cases hb2 : (val &&& 2) = 0 <;>
    cases sr <;> cases sp <;>
    simp_all [gotValue, Poller.emit, Poller.SendsMatch, replicaSends, persistSends,
      List.countP_append]

theorem emit_sends (s : Poller) (a : Action) (h : s.SendsMatch)
    (ha1 : ∀ v, a ≠ Action.sendReplica v) (ha2 : ∀ v, a ≠ Action.sendPersist v) :
    (s.emit a).SendsMatch := by
  obtain ⟨h1, h2⟩ := h
  cases a <;>
    simp_all [Poller.emit, Poller.SendsMatch, replicaSends_append, persistSends_append]

/-- The loop keeps flags and trace in agreement, and when it has returned
both flags are set. -/
theorem observeLoop_sends (mt : MutationToken) (cas : Cas) (forDelete : Bool) (repId : Int) :
    ∀ (rounds : List Round) (s : Poller), s.SendsMatch →
      (observeLoop mt cas forDelete repId s rounds).SendsMatch ∧
      ((observeLoop mt cas forDelete repId s rounds).returned = true →
        s.returned = true ∨
        ((observeLoop mt cas forDelete repId s rounds).sentReplicated = true ∧
          (observeLoop mt cas forDelete repId s rounds).sentPersisted = true)) := by
  intro rounds
  induction rounds with
  | nil => intro s h; exact ⟨h, fun hr => Or.inl hr⟩
  | cons r rest ih =>
    intro s h
    cases r with
    | dispatchError =>
      have h1 := emit_sends _ Action.observe h (by simp) (by simp)
      have h2 := emit_sends _ (Action.releaseTimer Timer.timeoutTmr false) h1 (by simp) (by simp)
      obtain ⟨f1, f2, f3, -, -⟩ := failMe_sends _ h2
      exact ⟨f1, fun _ => Or.inr ⟨f2, f3⟩⟩
    | deadline =>
      have h1 := emit_sends _ Action.observe h (by simp) (by simp)
      have h2 := emit_sends _ Action.cancel h1 (by simp) (by simp)
      have h3 := emit_sends _ (Action.releaseTimer Timer.timeoutTmr true) h2 (by simp) (by simp)
      obtain ⟨f1, f2, f3, -, -⟩ := failMe_sends _ h3
      exact ⟨f1, fun _ => Or.inr ⟨f2, f3⟩⟩
    | reply rep w =>
      have h1 := emit_sends _ Action.observe h (by simp) (by simp)
      obtain ⟨h2, h2r⟩ := gotValue_sends _ (observeOnce mt cas forDelete repId rep) h1
      have h3 := emit_sends _ (Action.acquireTimer (Timer.waitTmr
        (gotValue (s.emit Action.observe) (observeOnce mt cas forDelete repId rep)).round))
        h2 (by simp) (by simp)
      cases w with
      | pollElapsed =>
        simp only [observeLoop]
        have h4 : (Poller.emit
            { (gotValue (s.emit Action.observe) (observeOnce mt cas forDelete repId rep)).emit
                (Action.acquireTimer (Timer.waitTmr
                  (gotValue (s.emit Action.observe)
                    (observeOnce mt cas forDelete repId rep)).round)) with
              round := (gotValue (s.emit Action.observe)
                (observeOnce mt cas forDelete repId rep)).round + 1 }
            (Action.releaseTimer (Timer.waitTmr
              (gotValue (s.emit Action.observe)
                (observeOnce mt cas forDelete repId rep)).round) true)).SendsMatch :=
          emit_sends _ _ h3 (by simp) (by simp)
        obtain ⟨i1, i2⟩ := ih _ h4
        refine ⟨i1, fun hr => ?_⟩
        rcases i2 hr with hq | hq
        · left
          simp only [Poller.emit] at hq h2r
          rw [h2r] at hq
          exact hq
        · exact Or.inr hq
      | deadline =>
        simp only [observeLoop]
        have h4 : (Poller.emit
            { (gotValue (s.emit Action.observe) (observeOnce mt cas forDelete repId rep)).emit
                (Action.acquireTimer (Timer.waitTmr
                  (gotValue (s.emit Action.observe)
                    (observeOnce mt cas forDelete repId rep)).round)) with
              round := (gotValue (s.emit Action.observe)
                (observeOnce mt cas forDelete repId rep)).round + 1 }
            (Action.releaseTimer (Timer.waitTmr
              (gotValue (s.emit Action.observe)
                (observeOnce mt cas forDelete repId rep)).round) false)).SendsMatch :=
          emit_sends _ _ h3 (by simp) (by simp)
        have h5 := emit_sends _ (Action.releaseTimer Timer.timeoutTmr true) h4 (by simp) (by simp)
        obtain ⟨f1, f2, f3, -, -⟩ := failMe_sends _ h5
        exact ⟨f1, fun _ => Or.inr ⟨f2, f3⟩⟩

theorem TraceExtends.rfl (a : List Action) : TraceExtends a a :=
  ⟨[], by simp⟩

theorem TraceExtends.trans {a b c : List Action}
    (h1 : TraceExtends a b) (h2 : TraceExtends b c) : TraceExtends a c := by
  obtain ⟨t1, rfl⟩ := h1
  obtain ⟨t2, rfl⟩ := h2
  exact ⟨t1 ++ t2, by simp⟩

theorem emit_trace (s : Poller) (a : Action) : TraceExtends s.trace (s.emit a).trace :=
  ⟨[a], rfl⟩

theorem failMe_trace (s : Poller) : TraceExtends s.trace (failMe s).trace := by
  unfold failMe TraceExtends
  simp only []
  split_ifs <;> simp [Poller.emit]

theorem gotValue_trace (s : Poller) (val : Nat) :
    TraceExtends s.trace (gotValue s val).trace := by
  unfold gotValue TraceExtends
  simp only []
  split_ifs <;> simp [Poller.emit]

/-- The loop only appends to the trace. -/
theorem observeLoop_trace (mt : MutationToken) (cas : Cas) (forDelete : Bool) (repId : Int) :
    ∀ (rounds : List Round) (s : Poller),
      TraceExtends s.trace (observeLoop mt cas forDelete repId s rounds).trace := by
  intro rounds
  induction rounds with
  | nil => intro s; exact TraceExtends.rfl _
  | cons r rest ih =>
    intro s
    cases r with
    | dispatchError =>
      simp only [observeLoop]
      refine TraceExtends.trans ?_ (failMe_trace _)
      exact (emit_trace _ _).trans (emit_trace _ _)
    | deadline =>
      simp only [observeLoop]
      refine TraceExtends.trans ?_ (failMe_trace _)
      exact (emit_trace _ _).trans ((emit_trace _ _).trans (emit_trace _ _))
    | reply rep w =>
      have hg : TraceExtends s.trace
          (gotValue (s.emit Action.observe) (observeOnce mt cas forDelete repId rep)).trace :=
        (emit_trace _ _).trans (gotValue_trace _ _)
      cases w with
      | pollElapsed =>
        simp only [observeLoop]
        refine TraceExtends.trans ?_ (ih _)
        refine TraceExtends.trans ?_ (emit_trace _ _)
        exact hg.trans (emit_trace _ _)
      | deadline =>
        simp only [observeLoop]
        refine TraceExtends.trans ?_ (failMe_trace _)
        refine TraceExtends.trans ?_ (emit_trace _ _)
        refine TraceExtends.trans ?_ (emit_trace _ _)
        exact hg.trans (emit_trace _ _)

theorem count_sendReplica_le (tr : List Action) (v : Bool) :
    tr.count (Action.sendReplica v) ≤ replicaSends tr := by
  unfold replicaSends List.count
  apply List.countP_mono_left
  intro a _ ha
  have : a = Action.sendReplica v := by simpa using ha
  subst this
  rfl

theorem count_sendPersist_le (tr : List Action) (v : Bool) :
    tr.count (Action.sendPersist v) ≤ persistSends tr := by
  unfold persistSends List.count
  apply List.countP_mono_left
  intro a _ ha
  have : a = Action.sendPersist v := by simpa using ha
  subst this
  rfl

theorem start_sends : Poller.start.SendsMatch := by
  simp [Poller.start, Poller.SendsMatch, replicaSends, persistSends]

theorem sendsMatch_le (s : Poller) (h : s.SendsMatch) :
    replicaSends s.trace ≤ 1 ∧ persistSends s.trace ≤ 1 := by
  obtain ⟨h1, h2⟩ := h
  constructor
  · rw [h1]; split <;> omega
  · rw [h2]; split <;> omega

/-- A poll whose value has bit 1 set leaves `true` on the replication channel
of a poller that had sent nothing, and the rest of the run keeps it. -/
theorem observeLoop_first_replica (mt : MutationToken) (cas : Cas) (forDelete : Bool)
    (repId : Int) (r : NodeReply) (w : Wait) (rest : List Round)
    (h : (observeOnce mt cas forDelete repId r &&& 1) ≠ 0) :
    1 ≤ (observeOne mt cas forDelete repId (Round.reply r w :: rest)).trace.count
      (Action.sendReplica true) := by
  have hg : 1 ≤ (gotValue (Poller.start.emit Action.observe)
      (observeOnce mt cas forDelete repId r)).trace.count (Action.sendReplica true) := by
    unfold gotValue
    simp only []
    split_ifs <;> simp_all [Poller.emit, Poller.start, List.count_append]
  have hext : TraceExtends (gotValue (Poller.start.emit Action.observe)
      (observeOnce mt cas forDelete repId r)).trace
      (observeOne mt cas forDelete repId (Round.reply r w :: rest)).trace := by
    unfold observeOne
    cases w with
    | pollElapsed =>
      simp only [observeLoop]
      refine TraceExtends.trans ?_ (observeLoop_trace _ _ _ _ _ _)
      exact (emit_trace _ _).trans (emit_trace _ _)
    | deadline =>
      simp only [observeLoop]
      refine TraceExtends.trans ?_ (failMe_trace _)
      exact (emit_trace _ _).trans ((emit_trace _ _).trans (emit_trace _ _))
  obtain ⟨t, ht⟩ := hext
  rw [ht, List.count_append]
  omega

/-- The same for bit 2 and the persistence channel. -/
theorem observeLoop_first_persist (mt : MutationToken) (cas : Cas) (forDelete : Bool)
    (repId : Int) (r : NodeReply) (w : Wait) (rest : List Round)
    (h : (observeOnce mt cas forDelete repId r &&& 2) ≠ 0) :
    1 ≤ (observeOne mt cas forDelete repId (Round.reply r w :: rest)).trace.count
      (Action.sendPersist true) := by
  have hg : 1 ≤ (gotValue (Poller.start.emit Action.observe)
      (observeOnce mt cas forDelete repId r)).trace.count (Action.sendPersist true) := by
    unfold gotValue
    simp only []
    split_ifs <;> simp_all [Poller.emit, Poller.start, List.count_append]
  have hext : TraceExtends (gotValue (Poller.start.emit Action.observe)
      (observeOnce mt cas forDelete repId r)).trace
      (observeOne mt cas forDelete repId (Round.reply r w :: rest)).trace := by
    unfold observeOne
    cases w with
    | pollElapsed =>
      simp only [observeLoop]
      refine TraceExtends.trans ?_ (observeLoop_trace _ _ _ _ _ _)
      exact (emit_trace _ _).trans (emit_trace _ _)
    | deadline =>
      simp only [observeLoop]
      refine TraceExtends.trans ?_ (failMe_trace _)
      exact (emit_trace _ _).trans ((emit_trace _ _).trans (emit_trace _ _))
  obtain ⟨t, ht⟩ := hext
  rw [ht, List.count_append]
  omega

/-- C4: for every node, every strategy (token, CAS, delete flag) and every
sequence of rounds, `observeOne` has at every point of its run sent at most
one value on the replication channel and at most one on the persistence
channel, and when it has returned (dispatch error, deadline while an
observation is outstanding, deadline during the inter-poll wait) it has sent
exactly one value on each. In particular two consecutive polls that both
translate to true for a flag give a single send of `true` for that flag and
no other send on its channel. -/
theorem observeOne_sends_once (mt : MutationToken) (cas : Cas) (forDelete : Bool)
    (repId : Int) (rounds : List Round) :
    (∀ k, replicaSends ((observeOne mt cas forDelete repId rounds).trace.take k) ≤ 1 ∧
        persistSends ((observeOne mt cas forDelete repId rounds).trace.take k) ≤ 1) ∧
    ((observeOne mt cas forDelete repId rounds).returned = true →
      replicaSends (observeOne mt cas forDelete repId rounds).trace = 1 ∧
        persistSends (observeOne mt cas forDelete repId rounds).trace = 1) ∧
    (∀ (r1 r2 : NodeReply) (w : Wait) (rest : List Round),
      (observeOnce mt cas forDelete repId r1 &&& 1) ≠ 0 →
      (observeOnce mt cas forDelete repId r2 &&& 1) ≠ 0 →
      (observeOne mt cas forDelete repId
          (Round.reply r1 Wait.pollElapsed :: Round.reply r2 w :: rest)).trace.count
        (Action.sendReplica true) = 1 ∧
      replicaSends (observeOne mt cas forDelete repId
          (Round.reply r1 Wait.pollElapsed :: Round.reply r2 w :: rest)).trace = 1) ∧
    (∀ (r1 r2 : NodeReply) (w : Wait) (rest : List Round),
      (observeOnce mt cas forDelete repId r1 &&& 2) ≠ 0 →
      (observeOnce mt cas forDelete repId r2 &&& 2) ≠ 0 →
      (observeOne mt cas forDelete repId
          (Round.reply r1 Wait.pollElapsed :: Round.reply r2 w :: rest)).trace.count
        (Action.sendPersist true) = 1 ∧
      persistSends (observeOne mt cas forDelete repId
          (Round.reply r1 Wait.pollElapsed :: Round.reply r2 w :: rest)).trace = 1) := by
  have hinv := fun rs => observeLoop_sends mt cas forDelete repId rs Poller.start start_sends
  have hle := fun rs => sendsMatch_le _ (hinv rs).1
  refine ⟨?_, ?_, ?_, ?_⟩
  · intro k
    obtain ⟨a, b⟩ := hle rounds
    constructor
    · exact le_trans (List.Sublist.countP_le _ (List.take_sublist _ _)) a
    · exact le_trans (List.Sublist.countP_le _ (List.take_sublist _ _)) b
  · intro hr
    obtain ⟨⟨m1, m2⟩, hfl⟩ := hinv rounds
    rcases hfl hr with h | ⟨f1, f2⟩
    · simp [Poller.start] at h
    · unfold observeOne
      rw [m1, m2, f1, f2]
      simp
  · intro r1 r2 w rest h1 _
    have hc := observeLoop_first_replica mt cas forDelete repId r1 Wait.pollElapsed
      (Round.reply r2 w :: rest) h1
    have hub := count_sendReplica_le
      (observeOne mt cas forDelete repId
        (Round.reply r1 Wait.pollElapsed :: Round.reply r2 w :: rest)).trace true
    have := (hle (Round.reply r1 Wait.pollElapsed :: Round.reply r2 w :: rest)).1
    unfold observeOne at hc hub ⊢
    omega
  · intro r1 r2 w rest h1 _
    have hc := observeLoop_first_persist mt cas forDelete repId r1 Wait.pollElapsed
      (Round.reply r2 w :: rest) h1
    have hub := count_sendPersist_le
      (observeOne mt cas forDelete repId
        (Round.reply r1 Wait.pollElapsed :: Round.reply r2 w :: rest)).trace true
    have := (hle (Round.reply r1 Wait.pollElapsed :: Round.reply r2 w :: rest)).2
    unfold observeOne at hc hub ⊢
    omega

/-- Witness of C4: a replica under the CAS strategy that twice reports
`Persisted` with the expected CAS and then reaches its deadline sends one
`true` on each channel and nothing else on them. -/
theorem observeOne_sends_once_witness :
    replicaSends (observeOne ⟨0, 0⟩ 7 false 1
        [Round.reply ⟨⟨KeyState.Persisted, 7, none⟩, ⟨0, 0, none⟩⟩ Wait.pollElapsed,
         Round.reply ⟨⟨KeyState.Persisted, 7, none⟩, ⟨0, 0, none⟩⟩ Wait.pollElapsed,
         Round.deadline]).trace = 1 ∧
    persistSends (observeOne ⟨0, 0⟩ 7 false 1
        [Round.reply ⟨⟨KeyState.Persisted, 7, none⟩, ⟨0, 0, none⟩⟩ Wait.pollElapsed,
         Round.reply ⟨⟨KeyState.Persisted, 7, none⟩, ⟨0, 0, none⟩⟩ Wait.pollElapsed,
         Round.deadline]).trace = 1 ∧
    (observeOne ⟨0, 0⟩ 7 false 1
        [Round.reply ⟨⟨KeyState.Persisted, 7, none⟩, ⟨0, 0, none⟩⟩ Wait.pollElapsed,
         Round.reply ⟨⟨KeyState.Persisted, 7, none⟩, ⟨0, 0, none⟩⟩ Wait.pollElapsed,
         Round.deadline]).trace.count (Action.sendReplica true) = 1 :=
  have h := observeOne_sends_once ⟨0, 0⟩ 7 false 1
    [Round.reply ⟨⟨KeyState.Persisted, 7, none⟩, ⟨0, 0, none⟩⟩ Wait.pollElapsed,
     Round.reply ⟨⟨KeyState.Persisted, 7, none⟩, ⟨0, 0, none⟩⟩ Wait.pollElapsed,
     Round.deadline]
  have hr := h.2.1 (by decide)
  ⟨hr.1, hr.2,
    (h.2.2.1 ⟨⟨KeyState.Persisted, 7, none⟩, ⟨0, 0, none⟩⟩
      ⟨⟨KeyState.Persisted, 7, none⟩, ⟨0, 0, none⟩⟩ Wait.pollElapsed [Round.deadline]
      (by decide) (by decide)).1⟩


/-! ## Theorems: the rounds of `observeOne`, one at a time -/

theorem gotValue_eq (s : Poller) (val : Nat) :
    gotValue s val =
      { sentReplicated := s.sentReplicated || decide ((val &&& 1) ≠ 0),
        sentPersisted := s.sentPersisted || decide ((val &&& 2) ≠ 0),
        round := s.round, trace := s.trace ++ valueSends s val,
        returned := s.returned } := by
  obtain ⟨sr, sp, rd, tr, rt⟩ := s
  unfold gotValue valueSends
  generalize (val &&& 1) = b1
  generalize (val &&& 2) = b2
  by_cases h1 : b1 = 0 <;> by_cases h2 : b2 = 0 <;>
    cases sr <;> cases sp <;>
    simp [Poller.emit, h1, h2]

theorem failMe_eq (s : Poller) :
    failMe s =
      { sentReplicated := true, sentPersisted := true, round := s.round,
        trace := s.trace ++ failSends s, returned := s.returned } := by
  obtain ⟨sr, sp, rd, tr, rt⟩ := s
  cases sr <;> cases sp <;> simp [failMe, failSends, Poller.emit]

theorem observeLoop_nil (mt : MutationToken) (cas : Cas) (forDelete : Bool) (repId : Int)
    (s : Poller) : observeLoop mt cas forDelete repId s [] = s := rfl

/-- A round in which the dispatch fails (lines 106-111). -/
theorem observeLoop_dispatchError (mt : MutationToken) (cas : Cas) (forDelete : Bool)
    (repId : Int) (s : Poller) (rest : List Round) :
    observeLoop mt cas forDelete repId s (Round.dispatchError :: rest) =
      { sentReplicated := true, sentPersisted := true, round := s.round,
        trace := s.trace ++ ([Action.observe,
          Action.releaseTimer Timer.timeoutTmr false] ++ failSends s),
        returned := true } := by
  simp [observeLoop, failMe_eq, Poller.emit, failSends]

/-- A round in which the deadline passes while the observation is
outstanding (lines 137-142). -/
theorem observeLoop_deadline (mt : MutationToken) (cas : Cas) (forDelete : Bool)
    (repId : Int) (s : Poller) (rest : List Round) :
    observeLoop mt cas forDelete repId s (Round.deadline :: rest) =
      { sentReplicated := true, sentPersisted := true, round := s.round,
        trace := s.trace ++ ([Action.observe, Action.cancel,
          Action.releaseTimer Timer.timeoutTmr true] ++ failSends s),
        returned := true } := by
  simp [observeLoop, failMe_eq, Poller.emit, failSends]

/-- A round in which a value arrives and the poll interval elapses. -/
theorem observeLoop_pollElapsed (mt : MutationToken) (cas : Cas) (forDelete : Bool)
    (repId : Int) (s : Poller) (r : NodeReply) (rest : List Round) :
    observeLoop mt cas forDelete repId s (Round.reply r Wait.pollElapsed :: rest) =
      observeLoop mt cas forDelete repId
        (s.afterPoll (observeOnce mt cas forDelete repId r)) rest := by
  generalize hv : observeOnce mt cas forDelete repId r = val
  simp only [observeLoop, hv, gotValue_eq, Poller.emit, Poller.afterPoll, valueSends,
    List.append_assoc, List.singleton_append, List.cons_append, List.nil_append]

/-- A round in which a value arrives and the deadline passes during the wait
(lines 130-134). -/
theorem observeLoop_waitDeadline (mt : MutationToken) (cas : Cas) (forDelete : Bool)
    (repId : Int) (s : Poller) (r : NodeReply) (rest : List Round) :
    observeLoop mt cas forDelete repId s (Round.reply r Wait.deadline :: rest) =
      { sentReplicated := true, sentPersisted := true, round := s.round + 1,
        trace := s.trace ++ ([Action.observe] ++
          valueSends s (observeOnce mt cas forDelete repId r) ++
          [Action.acquireTimer (Timer.waitTmr s.round),
           Action.releaseTimer (Timer.waitTmr s.round) false,
           Action.releaseTimer Timer.timeoutTmr true] ++
          failSends (gotValue s (observeOnce mt cas forDelete repId r))),
        returned := true } := by
  generalize hv : observeOnce mt cas forDelete repId r = val
  simp only [observeLoop, hv, failMe_eq, gotValue_eq, Poller.emit, failSends, valueSends,
    List.append_assoc, List.singleton_append, List.cons_append, List.nil_append]

/-- Whether `observeLoop` has returned: exactly when a round in which it
returns was met. -/
theorem observeLoop_returned (mt : MutationToken) (cas : Cas) (forDelete : Bool)
    (repId : Int) : ∀ (rounds : List Round) (s : Poller),
      (observeLoop mt cas forDelete repId s rounds).returned
        = (s.returned || terminates rounds) := by
  intro rounds
  induction rounds with
  | nil => intro s; simp [observeLoop, terminates]
  | cons r rest ih =>
    intro s
    cases r with
    | dispatchError => simp [observeLoop_dispatchError, terminates]
    | deadline => simp [observeLoop_deadline, terminates]
    | reply rep w =>
      cases w with
      | pollElapsed =>
        rw [observeLoop_pollElapsed, ih]
        simp [terminates, Poller.afterPoll]
      | deadline => simp [observeLoop_waitDeadline, terminates]

/-- One call of `observeOnce` is made in every round that is entered. -/
theorem observeLoop_observeCalls (mt : MutationToken) (cas : Cas) (forDelete : Bool)
    (repId : Int) : ∀ (rounds : List Round) (s : Poller),
      observeCalls (observeLoop mt cas forDelete repId s rounds).trace
        = observeCalls s.trace + roundsRun rounds := by
  intro rounds
  induction rounds with
  | nil => intro s; simp [observeLoop, roundsRun]
  | cons r rest ih =>
    intro s
    have hf : ∀ p : Poller, List.count Action.observe (failSends p) = 0 := by
      intro p
      obtain ⟨sr, sp, rd, tr, rt⟩ := p
      cases sr <;> cases sp <;> simp [failSends]
    have hv : ∀ (p : Poller) (v : Nat), List.count Action.observe (valueSends p v) = 0 := by
      intro p v
      unfold valueSends
      split_ifs <;> simp
    cases r with
    | dispatchError =>
      simp [observeLoop_dispatchError, roundsRun, observeCalls, List.count_append, hf]
    | deadline =>
      simp [observeLoop_deadline, roundsRun, observeCalls, List.count_append, hf]
    | reply rep w =>
      cases w with
      | pollElapsed =>
        rw [observeLoop_pollElapsed, ih]
        simp [roundsRun, Poller.afterPoll, observeCalls, List.count_append, hv]
        omega
      | deadline =>
        simp [observeLoop_waitDeadline, roundsRun, observeCalls, List.count_append, hf, hv]

/-- The values sent on the replication channel by the rest of a run: `true`
once if no value was sent so far and some poll has bit 1 set, `false` once if
no value was sent so far, no poll has bit 1 set and the run returns. -/
theorem observeLoop_replica_values (mt : MutationToken) (cas : Cas) (forDelete : Bool)
    (repId : Int) : ∀ (rounds : List Round) (s : Poller),
      (observeLoop mt cas forDelete repId s rounds).trace.count (Action.sendReplica true)
        = s.trace.count (Action.sendReplica true) +
          (if s.sentReplicated = false ∧
              confirmedReplica mt cas forDelete repId rounds = true then 1 else 0) ∧
      (observeLoop mt cas forDelete repId s rounds).trace.count (Action.sendReplica false)
        = s.trace.count (Action.sendReplica false) +
          (if s.sentReplicated = false ∧
              confirmedReplica mt cas forDelete repId rounds = false ∧
              terminates rounds = true then 1 else 0) := by
  intro rounds
  induction rounds with
  | nil => intro s; simp [observeLoop, confirmedReplica, polled, terminates]
  | cons r rest ih =>
    intro s
    cases r with
    | dispatchError =>
      obtain ⟨sr, sp, rd, tr, rt⟩ := s
      cases sr <;> cases sp <;>
        simp [observeLoop_dispatchError, confirmedReplica, polled, terminates, failSends,
          List.count_append]
    | deadline =>
      obtain ⟨sr, sp, rd, tr, rt⟩ := s
      cases sr <;> cases sp <;>
        simp [observeLoop_deadline, confirmedReplica, polled, terminates, failSends,
          List.count_append]
    | reply rep w =>
      generalize hval : observeOnce mt cas forDelete repId rep = val
      cases w with
      | pollElapsed =>
        rw [observeLoop_pollElapsed, hval]
        obtain ⟨i1, i2⟩ := ih (s.afterPoll val)
        rw [i1, i2]
        have hc : confirmedReplica mt cas forDelete repId
            (Round.reply rep Wait.pollElapsed :: rest)
            = (decide ((val &&& 1) ≠ 0) || confirmedReplica mt cas forDelete repId rest) := by
          simp [confirmedReplica, polled, hval]
        rw [hc]
        obtain ⟨sr, sp, rd, tr, rt⟩ := s
        simp only [Poller.afterPoll, valueSends, terminates]
        by_cases h1 : (val &&& 1) = 0 <;> by_cases h2 : (val &&& 2) = 0 <;>
          cases sr <;> cases sp <;>
          by_cases hcr : confirmedReplica mt cas forDelete repId rest = true <;>
          by_cases htm : terminates rest = true <;>
          simp [-Nat.and_one_is_mod, h1, h2, hcr, htm, List.count_append]
      | deadline =>
        rw [observeLoop_waitDeadline, hval]
        have hc : confirmedReplica mt cas forDelete repId
            (Round.reply rep Wait.deadline :: rest) = decide ((val &&& 1) ≠ 0) := by
          simp [confirmedReplica, polled, hval]
        rw [hc]
        obtain ⟨sr, sp, rd, tr, rt⟩ := s
        simp only [gotValue_eq, failSends, valueSends, terminates]
        by_cases h1 : (val &&& 1) = 0 <;> by_cases h2 : (val &&& 2) = 0 <;>
          cases sr <;> cases sp <;>
          simp [-Nat.and_one_is_mod, h1, h2, List.count_append]

/-- The values sent on the persistence channel by the rest of a run: `true`
once if no value was sent so far and some poll has bit 2 set, `false` once if
no value was sent so far, no poll has bit 2 set and the run returns. -/
theorem observeLoop_persist_values (mt : MutationToken) (cas : Cas) (forDelete : Bool)
    (repId : Int) : ∀ (rounds : List Round) (s : Poller),
      (observeLoop mt cas forDelete repId s rounds).trace.count (Action.sendPersist true)
        = s.trace.count (Action.sendPersist true) +
          (if s.sentPersisted = false ∧
              confirmedPersist mt cas forDelete repId rounds = true then 1 else 0) ∧
      (observeLoop mt cas forDelete repId s rounds).trace.count (Action.sendPersist false)
        = s.trace.count (Action.sendPersist false) +
          (if s.sentPersisted = false ∧
              confirmedPersist mt cas forDelete repId rounds = false ∧
              terminates rounds = true then 1 else 0) := by
  intro rounds
  induction rounds with
  | nil => intro s; simp [observeLoop, confirmedPersist, polled, terminates]
  | cons r rest ih =>
    intro s
    cases r with
    | dispatchError =>
      obtain ⟨sr, sp, rd, tr, rt⟩ := s
      cases sr <;> cases sp <;>
        simp [observeLoop_dispatchError, confirmedPersist, polled, terminates, failSends,
          List.count_append]
    | deadline =>
      obtain ⟨sr, sp, rd, tr, rt⟩ := s
      cases sr <;> cases sp <;>
        simp [observeLoop_deadline, confirmedPersist, polled, terminates, failSends,
          List.count_append]
    | reply rep w =>
      generalize hval : observeOnce mt cas forDelete repId rep = val
      cases w with
      | pollElapsed =>
        rw [observeLoop_pollElapsed, hval]
        obtain ⟨i1, i2⟩ := ih (s.afterPoll val)
        rw [i1, i2]
        have hc : confirmedPersist mt cas forDelete repId
            (Round.reply rep Wait.pollElapsed :: rest)
            = (decide ((val &&& 2) ≠ 0) || confirmedPersist mt cas forDelete repId rest) := by
          simp [confirmedPersist, polled, hval]
        rw [hc]
        obtain ⟨sr, sp, rd, tr, rt⟩ := s
        simp only [Poller.afterPoll, valueSends, terminates]
        by_cases h1 : (val &&& 1) = 0 <;> by_cases h2 : (val &&& 2) = 0 <;>
          cases sr <;> cases sp <;>
          by_cases hcr : confirmedPersist mt cas forDelete repId rest = true <;>
          by_cases htm : terminates rest = true <;>
          simp [-Nat.and_one_is_mod, h1, h2, hcr, htm, List.count_append]
      | deadline =>
        rw [observeLoop_waitDeadline, hval]
        have hc : confirmedPersist mt cas forDelete repId
            (Round.reply rep Wait.deadline :: rest) = decide ((val &&& 2) ≠ 0) := by
          simp [confirmedPersist, polled, hval]
        rw [hc]
        obtain ⟨sr, sp, rd, tr, rt⟩ := s
        simp only [gotValue_eq, failSends, valueSends, terminates]
        by_cases h1 : (val &&& 1) = 0 <;> by_cases h2 : (val &&& 2) = 0 <;>
          cases sr <;> cases sp <;>
          simp [-Nat.and_one_is_mod, h1, h2, List.count_append]


/-! ## Theorems: strategy, master node, errors, termination -/

/-- Replies that give the same value on `commCh` give the same run. -/
theorem observeLoop_withReply (mt : MutationToken) (cas : Cas) (forDelete : Bool)
    (repId : Int) (f : NodeReply → NodeReply)
    (h : ∀ r, observeOnce mt cas forDelete repId (f r) = observeOnce mt cas forDelete repId r) :
    ∀ (rounds : List Round) (s : Poller),
      observeLoop mt cas forDelete repId s (rounds.map (Round.withReply f))
        = observeLoop mt cas forDelete repId s rounds := by
  intro rounds
  induction rounds with
  | nil => intro s; rfl
  | cons r rest ih =>
    intro s
    cases r with
    | dispatchError =>
      simp only [List.map_cons, Round.withReply, observeLoop_dispatchError]
    | deadline =>
      simp only [List.map_cons, Round.withReply, observeLoop_deadline]
    | reply rep w =>
      cases w with
      | pollElapsed =>
        simp only [List.map_cons, Round.withReply, observeLoop_pollElapsed, h, ih]
      | deadline =>
        simp only [List.map_cons, Round.withReply, observeLoop_waitDeadline, h]

/-- C11: strategy selection. `observeOne` uses the token-based observation
exactly when the token has both fields non-zero and the CAS-based one
otherwise (so for the zero token the CAS table applies); the choice is a
function of the token alone, so that for every node index every poll of a run
uses the same strategy: under the token strategy no poll reads the CAS
observation, under the CAS strategy no poll reads the sequence numbers. -/
theorem observeOne_strategy (mt : MutationToken) (cas : Cas) (forDelete : Bool)
    (repId : Int) :
    (tokenStrategy mt = true ↔ (mt.VbUuid ≠ 0 ∧ mt.SeqNo ≠ 0)) ∧
    (∀ r : NodeReply, observeOnce mt cas forDelete repId r
      = if tokenStrategy mt = true then observeOnceSeqNo mt repId r.seq
        else observeOnceCas cas forDelete repId r.cas) ∧
    (∀ r : NodeReply, observeOnce ⟨0, 0⟩ cas forDelete repId r
      = observeOnceCas cas forDelete repId r.cas) ∧
    (tokenStrategy mt = true → ∀ (rounds : List Round) (cr : CasReply),
      observeOne mt cas forDelete repId
          (rounds.map (Round.withReply fun r => ⟨cr, r.seq⟩))
        = observeOne mt cas forDelete repId rounds) ∧
    (tokenStrategy mt = false → ∀ (rounds : List Round) (sr : SeqReply),
      observeOne mt cas forDelete repId
          (rounds.map (Round.withReply fun r => ⟨r.cas, sr⟩))
        = observeOne mt cas forDelete repId rounds) := by
  have hiff : tokenStrategy mt = true ↔ (mt.VbUuid ≠ 0 ∧ mt.SeqNo ≠ 0) := by
    simp [tokenStrategy]
  have hsel : ∀ r : NodeReply, observeOnce mt cas forDelete repId r
      = if tokenStrategy mt = true then observeOnceSeqNo mt repId r.seq
        else observeOnceCas cas forDelete repId r.cas := by
    intro r
    unfold observeOnce
    by_cases h : mt.VbUuid ≠ 0 ∧ mt.SeqNo ≠ 0
    · rw [if_pos h, if_pos (hiff.mpr h)]
    · rw [if_neg h, if_neg (fun ht => h (hiff.mp ht))]
  refine ⟨hiff, hsel, ?_, ?_, ?_⟩
  · intro r
    simp [observeOnce]
  · intro ht rounds cr
    unfold observeOne
    apply observeLoop_withReply
    intro r
    rw [hsel, hsel, if_pos ht, if_pos ht]
  · intro ht rounds sr
    unfold observeOne
    apply observeLoop_withReply
    intro r
    rw [hsel, hsel, ht]
    simp

/-- Witness of C11: with the zero token the node's sequence numbers are not
read (CAS table: `Persisted` with the expected CAS on a replica gives both
sends), with the token `(1, 5)` its CAS observation is not read. -/
theorem observeOne_strategy_witness :
    observeOne ⟨0, 0⟩ 7 false 1
        ([Round.reply ⟨⟨KeyState.Persisted, 7, none⟩, ⟨9, 9, none⟩⟩ Wait.deadline].map
          (Round.withReply fun r => ⟨r.cas, ⟨0, 0, none⟩⟩))
      = observeOne ⟨0, 0⟩ 7 false 1
          [Round.reply ⟨⟨KeyState.Persisted, 7, none⟩, ⟨9, 9, none⟩⟩ Wait.deadline] ∧
    observeOne ⟨1, 5⟩ 7 false 1
        ([Round.reply ⟨⟨KeyState.Persisted, 7, none⟩, ⟨9, 9, none⟩⟩ Wait.deadline].map
          (Round.withReply fun r => ⟨⟨KeyState.Unknown, 0, none⟩, r.seq⟩))
      = observeOne ⟨1, 5⟩ 7 false 1
          [Round.reply ⟨⟨KeyState.Persisted, 7, none⟩, ⟨9, 9, none⟩⟩ Wait.deadline] :=
  ⟨(observeOne_strategy ⟨0, 0⟩ 7 false 1).2.2.2.2 (by decide) _ _,
    (observeOne_strategy ⟨1, 5⟩ 7 false 1).2.2.2.1 (by decide) _ _⟩

theorem confirmedReplica_false (mt : MutationToken) (cas : Cas) (forDelete : Bool)
    (repId : Int) (rounds : List Round)
    (h : ∀ r ∈ polled rounds, (observeOnce mt cas forDelete repId r &&& 1) = 0) :
    confirmedReplica mt cas forDelete repId rounds = false := by
  unfold confirmedReplica
  rw [List.any_eq_false]
  intro r hr
  simp only [decide_eq_true_eq]
  exact fun hne => hne (h r hr)

theorem confirmedPersist_false (mt : MutationToken) (cas : Cas) (forDelete : Bool)
    (repId : Int) (rounds : List Round)
    (h : ∀ r ∈ polled rounds, (observeOnce mt cas forDelete repId r &&& 2) = 0) :
    confirmedPersist mt cas forDelete repId rounds = false := by
  unfold confirmedPersist
  rw [List.any_eq_false]
  intro r hr
  simp only [decide_eq_true_eq]
  exact fun hne => hne (h r hr)

/-- Under the CAS rule without the delete flag the master's value never has
bit 1 set. -/
theorem observeOnceCas_master_bit (cas : Cas) (r : CasReply) :
    (observeOnceCas cas false 0 r &&& 1) = 0 := by
  obtain ⟨ks, obsCas, err⟩ := r
  cases err with
  | some e => simp [observeOnceCas]
  | none =>
    by_cases hc : obsCas = cas <;> cases ks <;>
      simp [observeOnceCas, casVerdict, packOut, hc]

/-- Counterexample to C12 as stated: on a delete confirmation the master
(node index 0) reporting `Deleted` is counted as replicated under the CAS
rule, and its poller sends `true` on the replication channel. -/
theorem observeOnceCas_master_counterexample :
    (casVerdict 5 true 0 KeyState.Deleted 5).1 = true ∧
    tokenStrategy ⟨0, 0⟩ = false ∧
    (observeOne ⟨0, 0⟩ 5 true 0
        [Round.reply ⟨⟨KeyState.Deleted, 5, none⟩, ⟨0, 0, none⟩⟩ Wait.deadline]).trace.count
      (Action.sendReplica true) = 1 := by
  decide

/-- C12 (amended): under the CAS-based rule with `forDelete = false` the
master (node index 0) never counts toward "replicated": for every observed
state, observed CAS and expected CAS the verdict has replicated = false, and
under the CAS strategy the master's poller never sends `true` on the
replication channel. -/
theorem observeOnceCas_master_nonDelete (cas obsCas : Cas) (ks : KeyState)
    (mt : MutationToken) (rounds : List Round) :
    (casVerdict cas false 0 ks obsCas).1 = false ∧
    (observeOnceCas cas false 0 ⟨ks, obsCas, none⟩ &&& 1) = 0 ∧
    (tokenStrategy mt = false →
      (observeOne mt cas false 0 rounds).trace.count (Action.sendReplica true) = 0) := by
  refine ⟨?_, observeOnceCas_master_bit cas _, ?_⟩
  · by_cases hc : obsCas = cas <;> cases ks <;> simp [casVerdict, hc]
  · intro ht
    have hbit : ∀ r ∈ polled rounds, (observeOnce mt cas false 0 r &&& 1) = 0 := by
      intro r _
      have hsel : observeOnce mt cas false 0 r = observeOnceCas cas false 0 r.cas := by
        unfold observeOnce
        simp only [tokenStrategy, decide_eq_false_iff_not] at ht
        rw [if_neg ht]
      rw [hsel]
      exact observeOnceCas_master_bit cas _
    have hc := confirmedReplica_false mt cas false 0 rounds hbit
    have h := (observeLoop_replica_values mt cas false 0 rounds Poller.start).1
    unfold observeOne
    rw [h, hc]
    simp [Poller.start]

/-- Witness of C12 (amended): the master reporting `Persisted` with the
expected CAS twice sends no `true` on the replication channel. -/
theorem observeOnceCas_master_nonDelete_witness :
    (observeOne ⟨0, 0⟩ 7 false 0
        [Round.reply ⟨⟨KeyState.Persisted, 7, none⟩, ⟨0, 0, none⟩⟩ Wait.pollElapsed,
         Round.reply ⟨⟨KeyState.Persisted, 7, none⟩, ⟨0, 0, none⟩⟩ Wait.deadline]).trace.count
      (Action.sendReplica true) = 0 :=
  (observeOnceCas_master_nonDelete 7 7 KeyState.Persisted ⟨0, 0⟩ _).2.2 (by decide)


/-- C13: in both strategies a callback that reports an error sends 0 on
`commCh` (verdict replicated = false, persisted = false). A round with the
value 0 sends nothing and does not end the run: after the poll interval the
loop is at its top again with unchanged flags, it issues another observation,
and the flags a later poll confirms are sent as if the failed round had not
been there. A failure to dispatch the call is terminal: `observeOne` returns
after sending `false` for every flag not yet sent. -/
theorem observeOne_callback_error (mt : MutationToken) (cas : Cas) (forDelete : Bool)
    (repId : Int) (s : Poller) (r : NodeReply) (rest : List Round) :
    (∀ (ks : KeyState) (obsCas : Cas) (e : String),
      observeOnceCas cas forDelete repId ⟨ks, obsCas, some e⟩ = 0) ∧
    (∀ (currentSeqNo persistSeqNo : Nat) (e : String),
      observeOnceSeqNo mt repId ⟨currentSeqNo, persistSeqNo, some e⟩ = 0) ∧
    (tokenStrategy mt = true → r.seq.err ≠ none →
      observeOnce mt cas forDelete repId r = 0) ∧
    (tokenStrategy mt = false → r.cas.err ≠ none →
      observeOnce mt cas forDelete repId r = 0) ∧
    (observeOnce mt cas forDelete repId r = 0 →
      observeLoop mt cas forDelete repId s (Round.reply r Wait.pollElapsed :: rest)
        = observeLoop mt cas forDelete repId
            { s with
              round := s.round + 1,
              trace := s.trace ++ [Action.observe,
                Action.acquireTimer (Timer.waitTmr s.round),
                Action.releaseTimer (Timer.waitTmr s.round) true] } rest) ∧
    (observeOnce mt cas forDelete repId r = 0 →
      (observeOne mt cas forDelete repId
          (Round.reply r Wait.pollElapsed :: rest)).trace.count (Action.sendReplica true)
        = (observeOne mt cas forDelete repId rest).trace.count (Action.sendReplica true) ∧
      (observeOne mt cas forDelete repId
          (Round.reply r Wait.pollElapsed :: rest)).trace.count (Action.sendPersist true)
        = (observeOne mt cas forDelete repId rest).trace.count (Action.sendPersist true) ∧
      observeCalls (observeOne mt cas forDelete repId
          (Round.reply r Wait.pollElapsed :: rest)).trace
        = 1 + observeCalls (observeOne mt cas forDelete repId rest).trace) ∧
    observeLoop mt cas forDelete repId s (Round.dispatchError :: rest)
      = { sentReplicated := true, sentPersisted := true, round := s.round,
          trace := s.trace ++ ([Action.observe,
            Action.releaseTimer Timer.timeoutTmr false] ++
            ((if s.sentReplicated = false then [Action.sendReplica false] else []) ++
              (if s.sentPersisted = false then [Action.sendPersist false] else []))),
          returned := true } := by
  refine ⟨fun _ _ _ => rfl, fun _ _ _ => rfl, ?_, ?_, ?_, ?_, ?_⟩
  · intro ht he
    have hs : mt.VbUuid ≠ 0 ∧ mt.SeqNo ≠ 0 := by simpa [tokenStrategy] using ht
    unfold observeOnce
    rw [if_pos hs]
    unfold observeOnceSeqNo
    cases h : r.seq.err with
    | none => exact absurd h he
    | some e => rfl
  · intro ht he
    have hs : ¬ (mt.VbUuid ≠ 0 ∧ mt.SeqNo ≠ 0) := by
      simpa only [tokenStrategy, decide_eq_false_iff_not] using ht
    unfold observeOnce
    rw [if_neg hs]
    unfold observeOnceCas
    cases h : r.cas.err with
    | none => exact absurd h he
    | some e => rfl
  · intro hv
    rw [observeLoop_pollElapsed, hv]
    congr 1
    obtain ⟨sr, sp, rd, tr, rt⟩ := s
    simp [Poller.afterPoll, valueSends]
  · intro hv
    have hcr : confirmedReplica mt cas forDelete repId
        (Round.reply r Wait.pollElapsed :: rest)
        = confirmedReplica mt cas forDelete repId rest := by
      simp [confirmedReplica, polled, hv]
    have hcp : confirmedPersist mt cas forDelete repId
        (Round.reply r Wait.pollElapsed :: rest)
        = confirmedPersist mt cas forDelete repId rest := by
      simp [confirmedPersist, polled, hv]
    unfold observeOne
    refine ⟨?_, ?_, ?_⟩
    · rw [(observeLoop_replica_values mt cas forDelete repId _ Poller.start).1,
        (observeLoop_replica_values mt cas forDelete repId rest Poller.start).1, hcr]
    · rw [(observeLoop_persist_values mt cas forDelete repId _ Poller.start).1,
        (observeLoop_persist_values mt cas forDelete repId rest Poller.start).1, hcp]
    · rw [observeLoop_observeCalls, observeLoop_observeCalls]
      simp only [roundsRun]
      omega
  · rw [observeLoop_dispatchError]
    rfl

/-- Witness of C13: under the CAS strategy a replica whose first observation
fails and whose second one reports `Persisted` with the expected CAS still
sends `true` for both flags; two observation calls are made. -/
theorem observeOne_callback_error_witness :
    (observeOne ⟨0, 0⟩ 7 false 1
        [Round.reply ⟨⟨KeyState.Unknown, 0, some "timeout"⟩, ⟨0, 0, none⟩⟩ Wait.pollElapsed,
         Round.reply ⟨⟨KeyState.Persisted, 7, none⟩, ⟨0, 0, none⟩⟩
           Wait.deadline]).trace.count (Action.sendReplica true) = 1 ∧
    (observeOne ⟨0, 0⟩ 7 false 1
        [Round.reply ⟨⟨KeyState.Unknown, 0, some "timeout"⟩, ⟨0, 0, none⟩⟩ Wait.pollElapsed,
         Round.reply ⟨⟨KeyState.Persisted, 7, none⟩, ⟨0, 0, none⟩⟩
           Wait.deadline]).trace.count (Action.sendPersist true) = 1 ∧
    observeCalls (observeOne ⟨0, 0⟩ 7 false 1
        [Round.reply ⟨⟨KeyState.Unknown, 0, some "timeout"⟩, ⟨0, 0, none⟩⟩ Wait.pollElapsed,
         Round.reply ⟨⟨KeyState.Persisted, 7, none⟩, ⟨0, 0, none⟩⟩
           Wait.deadline]).trace = 2 :=
  have h := observeOne_callback_error ⟨0, 0⟩ 7 false 1 Poller.start
    ⟨⟨KeyState.Unknown, 0, some "timeout"⟩, ⟨0, 0, none⟩⟩
    [Round.reply ⟨⟨KeyState.Persisted, 7, none⟩, ⟨0, 0, none⟩⟩ Wait.deadline]
  have hv := h.2.2.2.1 (by decide) (by decide)
  have hk := h.2.2.2.2.2.1 hv
  ⟨hk.1.trans (by decide), hk.2.1.trans (by decide), hk.2.2.trans (by decide)⟩


theorem signalsOf_append (a b : List Action) :
    signalsOf (a ++ b) = signalsOf a ++ signalsOf b := by
  simp [signalsOf, List.filterMap_append]

/-- Rounds after which the loop is still running can be run first. -/
theorem observeLoop_append (mt : MutationToken) (cas : Cas) (forDelete : Bool)
    (repId : Int) : ∀ (pre post : List Round) (s : Poller), terminates pre = false →
      observeLoop mt cas forDelete repId s (pre ++ post)
        = observeLoop mt cas forDelete repId
            (observeLoop mt cas forDelete repId s pre) post := by
  intro pre
  induction pre with
  | nil => intro post s _; rfl
  | cons r rest ih =>
    intro post s ht
    cases r with
    | dispatchError => simp [terminates] at ht
    | deadline => simp [terminates] at ht
    | reply rep w =>
      cases w with
      | pollElapsed =>
        simp only [terminates] at ht
        simp only [List.cons_append, observeLoop_pollElapsed]
        exact ih post _ ht
      | deadline => simp [terminates] at ht

/-- Once both flags are set the loop puts nothing more on the channels. -/
theorem observeLoop_signals_sent (mt : MutationToken) (cas : Cas) (forDelete : Bool)
    (repId : Int) : ∀ (rounds : List Round) (s : Poller),
      s.sentReplicated = true → s.sentPersisted = true →
      signalsOf (observeLoop mt cas forDelete repId s rounds).trace = signalsOf s.trace := by
  intro rounds
  induction rounds with
  | nil => intro s _ _; rfl
  | cons r rest ih =>
    intro s h1 h2
    cases r with
    | dispatchError =>
      simp [observeLoop_dispatchError, failSends, h1, h2, signalsOf_append, signalsOf]
    | deadline =>
      simp [observeLoop_deadline, failSends, h1, h2, signalsOf_append, signalsOf]
    | reply rep w =>
      cases w with
      | pollElapsed =>
        rw [observeLoop_pollElapsed, ih _ (by simp [Poller.afterPoll, h1])
          (by simp [Poller.afterPoll, h2])]
        simp [Poller.afterPoll, valueSends, h1, h2, signalsOf_append, signalsOf]
      | deadline =>
        simp [observeLoop_waitDeadline, gotValue_eq, failSends, valueSends, h1, h2,
          signalsOf_append, signalsOf]

/-- Counterexample to C14 as stated: a replica whose first poll confirms both
flags has sent both, yet after a second such poll it has made two observation
calls and has not returned. -/
theorem observeOne_both_sent_counterexample :
    (observeOne ⟨0, 0⟩ 7 false 1
        [Round.reply ⟨⟨KeyState.Persisted, 7, none⟩, ⟨0, 0, none⟩⟩
          Wait.pollElapsed]).sentReplicated = true ∧
    (observeOne ⟨0, 0⟩ 7 false 1
        [Round.reply ⟨⟨KeyState.Persisted, 7, none⟩, ⟨0, 0, none⟩⟩
          Wait.pollElapsed]).sentPersisted = true ∧
    observeCalls (observeOne ⟨0, 0⟩ 7 false 1
        [Round.reply ⟨⟨KeyState.Persisted, 7, none⟩, ⟨0, 0, none⟩⟩ Wait.pollElapsed,
         Round.reply ⟨⟨KeyState.Persisted, 7, none⟩, ⟨0, 0, none⟩⟩
           Wait.pollElapsed]).trace = 2 ∧
    (observeOne ⟨0, 0⟩ 7 false 1
        [Round.reply ⟨⟨KeyState.Persisted, 7, none⟩, ⟨0, 0, none⟩⟩ Wait.pollElapsed,
         Round.reply ⟨⟨KeyState.Persisted, 7, none⟩, ⟨0, 0, none⟩⟩
           Wait.pollElapsed]).returned = false := by
  decide

/-- C14 (amended): once `observeOne` has sent both the replication flag and
the persistence flag for its node it sends nothing more on either channel;
it does not stop there, but makes one observation call in every further
round and returns only in a round with a dispatch error or a deadline. -/
theorem observeOne_both_sent (mt : MutationToken) (cas : Cas) (forDelete : Bool)
    (repId : Int) (pre post : List Round)
    (h1 : (observeOne mt cas forDelete repId pre).sentReplicated = true)
    (h2 : (observeOne mt cas forDelete repId pre).sentPersisted = true)
    (h3 : terminates pre = false) :
    signalsOf (observeOne mt cas forDelete repId (pre ++ post)).trace
      = signalsOf (observeOne mt cas forDelete repId pre).trace ∧
    observeCalls (observeOne mt cas forDelete repId (pre ++ post)).trace
      = observeCalls (observeOne mt cas forDelete repId pre).trace + roundsRun post ∧
    (observeOne mt cas forDelete repId (pre ++ post)).returned = terminates post := by
  have happ : observeOne mt cas forDelete repId (pre ++ post)
      = observeLoop mt cas forDelete repId (observeOne mt cas forDelete repId pre) post :=
    observeLoop_append mt cas forDelete repId pre post Poller.start h3
  have hret : (observeOne mt cas forDelete repId pre).returned = false := by
    unfold observeOne
    rw [observeLoop_returned, h3]
    rfl
  rw [happ]
  refine ⟨observeLoop_signals_sent mt cas forDelete repId post _ h1 h2,
    observeLoop_observeCalls mt cas forDelete repId post _, ?_⟩
  rw [observeLoop_returned, hret]
  simp

/-- Witness of C14 (amended): after a first poll that confirms both flags, a
second poll and a deadline add two observation calls and no signal. -/
theorem observeOne_both_sent_witness :
    signalsOf (observeOne ⟨0, 0⟩ 7 false 1
        ([Round.reply ⟨⟨KeyState.Persisted, 7, none⟩, ⟨0, 0, none⟩⟩ Wait.pollElapsed] ++
         [Round.reply ⟨⟨KeyState.Persisted, 7, none⟩, ⟨0, 0, none⟩⟩ Wait.pollElapsed,
          Round.deadline])).trace
      = [Signal.replica true, Signal.persist true] ∧
    observeCalls (observeOne ⟨0, 0⟩ 7 false 1
        ([Round.reply ⟨⟨KeyState.Persisted, 7, none⟩, ⟨0, 0, none⟩⟩ Wait.pollElapsed] ++
         [Round.reply ⟨⟨KeyState.Persisted, 7, none⟩, ⟨0, 0, none⟩⟩ Wait.pollElapsed,
          Round.deadline])).trace = 3 ∧
    (observeOne ⟨0, 0⟩ 7 false 1
        ([Round.reply ⟨⟨KeyState.Persisted, 7, none⟩, ⟨0, 0, none⟩⟩ Wait.pollElapsed] ++
         [Round.reply ⟨⟨KeyState.Persisted, 7, none⟩, ⟨0, 0, none⟩⟩ Wait.pollElapsed,
          Round.deadline])).returned = true :=
  have h := observeOne_both_sent ⟨0, 0⟩ 7 false 1
    [Round.reply ⟨⟨KeyState.Persisted, 7, none⟩, ⟨0, 0, none⟩⟩ Wait.pollElapsed]
    [Round.reply ⟨⟨KeyState.Persisted, 7, none⟩, ⟨0, 0, none⟩⟩ Wait.pollElapsed,
     Round.deadline] (by decide) (by decide) (by decide)
  ⟨h.1.trans (by decide), h.2.1.trans (by decide), h.2.2.trans (by decide)⟩


/-! ## Theorems: the timers of `observeOne` -/

theorem acquires_append (t : Timer) (a b : List Action) :
    acquires t (a ++ b) = acquires t a + acquires t b := by
  simp [acquires, List.count_append]

theorem releases_append (t : Timer) (a b : List Action) :
    releases t (a ++ b) = releases t a + releases t b := by
  simp [releases, List.countP_append]

theorem acquires_timerFree (t : Timer) (l : List Action)
    (h : ∀ a ∈ l, a.timerFree = true) : acquires t l = 0 := by
  unfold acquires
  rw [List.count_eq_zero]
  intro hm
  have := h _ hm
  simp [Action.timerFree] at this

theorem releases_timerFree (t : Timer) (l : List Action)
    (h : ∀ a ∈ l, a.timerFree = true) : releases t l = 0 := by
  unfold releases
  rw [List.countP_eq_zero]
  intro a ha
  have := h a ha
  cases a <;> simp_all [Action.timerFree]

/-- A trace stays balanced when one action is added after which every timer
is still balanced. -/
theorem timersBalanced_snoc (tr : List Action) (a : Action) (h : TimersBalanced tr)
    (ha : ∀ t, releases t (tr ++ [a]) ≤ acquires t (tr ++ [a]) ∧
      acquires t (tr ++ [a]) ≤ 1) :
    TimersBalanced (tr ++ [a]) := by
  intro k t
  by_cases hk : k ≤ tr.length
  · rw [List.take_append_of_le_length hk]
    exact h k t
  · rw [List.take_of_length_le (by simp; omega)]
    exact ha t

theorem timerInv_free (tr l : List Action) (n m r : Nat) (h : TimerInv tr n m r)
    (hl : ∀ a ∈ l, a.timerFree = true) : TimerInv (tr ++ l) n m r := by
  induction l using List.reverseRecOn with
  | nil => simpa using h
  | append_singleton l a ih =>
    have hl1 : ∀ b ∈ l, b.timerFree = true := fun b hb => hl b (by simp [hb])
    have ha : a.timerFree = true := hl a (by simp)
    obtain ⟨b0, b1, b2, b3, b4, b5, b6⟩ := ih hl1
    have e1 : ∀ t, acquires t (tr ++ l ++ [a]) = acquires t (tr ++ l) := by
      intro t
      rw [acquires_append, acquires_timerFree t [a] (by simpa using ha)]
      rfl
    have e2 : ∀ t, releases t (tr ++ l ++ [a]) = releases t (tr ++ l) := by
      intro t
      rw [releases_append, releases_timerFree t [a] (by simpa using ha)]
      rfl
    have hfull := fun t => b0 (tr ++ l).length t
    simp only [List.take_length] at hfull
    rw [← List.append_assoc]
    refine ⟨timersBalanced_snoc _ _ b0 ?_, b1, b2, ?_, ?_, ?_, ?_⟩
    · intro t
      rw [e1, e2]
      exact hfull t
    · rw [e1]; exact b3
    · rw [e2]; exact b4
    · intro i; rw [e1]; exact b5 i
    · intro i; rw [e2]; exact b6 i

theorem timerInv_acquireWait (tr : List Action) (n r : Nat) (h : TimerInv tr n n r) :
    TimerInv (tr ++ [Action.acquireTimer (Timer.waitTmr n)]) (n + 1) n r := by
  obtain ⟨b0, b1, b2, b3, b4, b5, b6⟩ := h
  have e1 : ∀ i, acquires (Timer.waitTmr i) (tr ++ [Action.acquireTimer (Timer.waitTmr n)])
      = if i < n + 1 then 1 else 0 := by
    intro i
    rw [acquires_append, b5 i]
    by_cases hi : i = n
    · subst hi; simp [acquires]
    · have hne : ¬ n = i := fun h => hi h.symm
      have h0 : acquires (Timer.waitTmr i) [Action.acquireTimer (Timer.waitTmr n)] = 0 := by
        unfold acquires
        rw [List.count_eq_zero]
        simp [hi]
      rw [h0]
      split_ifs <;> omega
  have e2 : acquires Timer.timeoutTmr (tr ++ [Action.acquireTimer (Timer.waitTmr n)]) = 1 := by
    rw [acquires_append, b3]; simp [acquires]
  have e3 : ∀ t, releases t (tr ++ [Action.acquireTimer (Timer.waitTmr n)])
      = releases t tr := by
    intro t; rw [releases_append]; simp [releases]
  refine ⟨timersBalanced_snoc _ _ b0 ?_, by omega, b2, e2, by rw [e3]; exact b4, e1, ?_⟩
  · intro t
    rw [e3]
    cases t with
    | timeoutTmr => rw [e2, b4]; exact ⟨b2, le_refl _⟩
    | waitTmr i =>
      rw [e1 i, b6 i]
      split_ifs <;> omega
  · intro i; rw [e3]; exact b6 i

theorem timerInv_releaseWait (tr : List Action) (n r : Nat) (b : Bool)
    (h : TimerInv tr (n + 1) n r) :
    TimerInv (tr ++ [Action.releaseTimer (Timer.waitTmr n) b]) (n + 1) (n + 1) r := by
  obtain ⟨b0, b1, b2, b3, b4, b5, b6⟩ := h
  have e1 : ∀ t, acquires t (tr ++ [Action.releaseTimer (Timer.waitTmr n) b])
      = acquires t tr := by
    intro t; rw [acquires_append]; simp [acquires]
  have e2 : ∀ i, releases (Timer.waitTmr i) (tr ++ [Action.releaseTimer (Timer.waitTmr n) b])
      = if i < n + 1 then 1 else 0 := by
    intro i
    rw [releases_append, b6 i]
    by_cases hi : i = n
    · subst hi; simp [releases]
    · have hne : ¬ n = i := fun h => hi h.symm
      have h0 : releases (Timer.waitTmr i) [Action.releaseTimer (Timer.waitTmr n) b] = 0 := by
        simp [releases, hne]
      rw [h0]
      split_ifs <;> omega
  have e3 : releases Timer.timeoutTmr (tr ++ [Action.releaseTimer (Timer.waitTmr n) b])
      = r := by
    rw [releases_append, b4]; simp [releases]
  refine ⟨timersBalanced_snoc _ _ b0 ?_, le_refl _, b2, by rw [e1]; exact b3, e3, ?_, e2⟩
  · intro t
    rw [e1]
    cases t with
    | timeoutTmr => rw [e3, b3]; exact ⟨b2, le_refl _⟩
    | waitTmr i =>
      rw [e2 i, b5 i]
      split_ifs <;> omega
  · intro i; rw [e1]; exact b5 i

theorem timerInv_releaseTimeout (tr : List Action) (n m : Nat) (b : Bool)
    (h : TimerInv tr n m 0) :
    TimerInv (tr ++ [Action.releaseTimer Timer.timeoutTmr b]) n m 1 := by
  obtain ⟨b0, b1, b2, b3, b4, b5, b6⟩ := h
  have e1 : ∀ t, acquires t (tr ++ [Action.releaseTimer Timer.timeoutTmr b])
      = acquires t tr := by
    intro t; rw [acquires_append]; simp [acquires]
  have e2 : ∀ i, releases (Timer.waitTmr i) (tr ++ [Action.releaseTimer Timer.timeoutTmr b])
      = releases (Timer.waitTmr i) tr := by
    intro i; rw [releases_append]; simp [releases]
  have e3 : releases Timer.timeoutTmr (tr ++ [Action.releaseTimer Timer.timeoutTmr b])
      = 1 := by
    rw [releases_append, b4]; simp [releases]
  refine ⟨timersBalanced_snoc _ _ b0 ?_, b1, le_refl _, by rw [e1]; exact b3, e3, ?_, ?_⟩
  · intro t
    rw [e1]
    cases t with
    | timeoutTmr => rw [e3, b3]; exact ⟨le_refl _, le_refl _⟩
    | waitTmr i =>
      rw [e2 i, b5 i, b6 i]
      split_ifs <;> omega
  · intro i; rw [e1]; exact b5 i
  · intro i; rw [e2]; exact b6 i

theorem failSends_timerFree (s : Poller) : ∀ a ∈ failSends s, a.timerFree = true := by
  obtain ⟨sr, sp, rd, tr, rt⟩ := s
  cases sr <;> cases sp <;> simp [failSends, Action.timerFree]

theorem valueSends_timerFree (s : Poller) (val : Nat) :
    ∀ a ∈ valueSends s val, a.timerFree = true := by
  unfold valueSends
  split_ifs <;> simp [Action.timerFree]

theorem timerInv_released (tr : List Action) (n : Nat) (h : TimerInv tr n n 1) :
    TimersBalanced tr ∧ ∀ t, releases t tr = acquires t tr ∧ acquires t tr ≤ 1 := by
  obtain ⟨b0, b1, b2, b3, b4, b5, b6⟩ := h
  refine ⟨b0, fun t => ?_⟩
  cases t with
  | timeoutTmr => rw [b3, b4]; exact ⟨rfl, le_refl _⟩
  | waitTmr i => rw [b5 i, b6 i]; exact ⟨rfl, by split_ifs <;> omega⟩

theorem timerInv_start : TimerInv Poller.start.trace 0 0 0 := by
  have hb : TimersBalanced ([] ++ [Action.acquireTimer Timer.timeoutTmr]) := by
    apply timersBalanced_snoc
    · intro k t; simp [releases, acquires]
    · intro t
      cases t <;> simp [releases, acquires]
  refine ⟨by simpa [Poller.start] using hb, le_refl _, by omega, ?_, ?_, ?_, ?_⟩ <;>
    simp [Poller.start, acquires, releases]

/-- The loop keeps the timer bookkeeping: while it runs, every wait timer
acquired so far has been released and the deadline timer is held; when it has
returned, the deadline timer has been released as well. -/
theorem observeLoop_timers (mt : MutationToken) (cas : Cas) (forDelete : Bool)
    (repId : Int) : ∀ (rounds : List Round) (s : Poller),
      TimerInv s.trace s.round s.round 0 →
      TimerInv (observeLoop mt cas forDelete repId s rounds).trace
        (observeLoop mt cas forDelete repId s rounds).round
        (observeLoop mt cas forDelete repId s rounds).round
        (if terminates rounds = true then 1 else 0) := by
  intro rounds
  induction rounds with
  | nil => intro s h; simpa [observeLoop, terminates] using h
  | cons r rest ih =>
    intro s h
    have hobs : ∀ a ∈ [Action.observe], a.timerFree = true := by
      simp [Action.timerFree]
    have hcan : ∀ a ∈ [Action.cancel], a.timerFree = true := by
      simp [Action.timerFree]
    cases r with
    | dispatchError =>
      have h1 := timerInv_free _ [Action.observe] _ _ _ h hobs
      have h2 := timerInv_releaseTimeout _ _ _ false h1
      have h3 := timerInv_free _ (failSends s) _ _ _ h2 (failSends_timerFree s)
      rw [observeLoop_dispatchError]
      simpa [terminates] using h3
    | deadline =>
      have h1 := timerInv_free _ [Action.observe] _ _ _ h hobs
      have h1b := timerInv_free _ [Action.cancel] _ _ _ h1 hcan
      have h2 := timerInv_releaseTimeout _ _ _ true h1b
      have h3 := timerInv_free _ (failSends s) _ _ _ h2 (failSends_timerFree s)
      rw [observeLoop_deadline]
      simpa [terminates] using h3
    | reply rep w =>
      generalize hval : observeOnce mt cas forDelete repId rep = val
      have h1 := timerInv_free _ [Action.observe] _ _ _ h hobs
      have h2 := timerInv_free _ (valueSends s val) _ _ _ h1 (valueSends_timerFree s val)
      have h3 := timerInv_acquireWait _ _ _ h2
      cases w with
      | pollElapsed =>
        have h4 := timerInv_releaseWait _ _ _ true h3
        rw [observeLoop_pollElapsed, hval]
        have h5 := ih (s.afterPoll val) (by simpa [Poller.afterPoll] using h4)
        simpa [terminates] using h5
      | deadline =>
        have h4 := timerInv_releaseWait _ _ _ false h3
        have h5 := timerInv_releaseTimeout _ _ _ true h4
        have h6 := timerInv_free _ (failSends (gotValue s val)) _ _ _ h5
          (failSends_timerFree _)
        rw [observeLoop_waitDeadline, hval]
        simpa [terminates] using h6

/-- C16: on every path by which `observeOne` returns (dispatch error, deadline
while an observation is outstanding, deadline during the wait) every timer it
acquired, the deadline timer and each round's wait timer, has been released
exactly once when it returns; at every point of every run no timer has been
acquired twice, released twice or released before it was acquired. -/
theorem observeOne_timers (mt : MutationToken) (cas : Cas) (forDelete : Bool)
    (repId : Int) (rounds : List Round) :
    TimersBalanced (observeOne mt cas forDelete repId rounds).trace ∧
    acquires Timer.timeoutTmr (observeOne mt cas forDelete repId rounds).trace = 1 ∧
    ((observeOne mt cas forDelete repId rounds).returned = true →
      ∀ t : Timer,
        releases t (observeOne mt cas forDelete repId rounds).trace
          = acquires t (observeOne mt cas forDelete repId rounds).trace ∧
        (1 ≤ acquires t (observeOne mt cas forDelete repId rounds).trace →
          releases t (observeOne mt cas forDelete repId rounds).trace = 1)) := by
  have h := observeLoop_timers mt cas forDelete repId rounds Poller.start timerInv_start
  have hret : (observeOne mt cas forDelete repId rounds).returned = terminates rounds := by
    unfold observeOne
    rw [observeLoop_returned]
    simp [Poller.start]
  unfold observeOne at hret ⊢
  refine ⟨h.1, h.2.2.2.1, fun hr => ?_⟩
  rw [hret] at hr
  rw [hr, if_pos rfl] at h
  obtain ⟨-, hall⟩ := timerInv_released _ _ h
  intro t
  obtain ⟨e, le1⟩ := hall t
  exact ⟨e, fun hpos => by omega⟩

/-- Witness of C16: one poll whose wait elapses, then a dispatch error: the
deadline timer and the wait timer of round 0 are each acquired once and
released once. -/
theorem observeOne_timers_witness :
    releases Timer.timeoutTmr (observeOne ⟨0, 0⟩ 7 false 1
        [Round.reply ⟨⟨KeyState.NotPersisted, 7, none⟩, ⟨0, 0, none⟩⟩ Wait.pollElapsed,
         Round.dispatchError]).trace = 1 ∧
    releases (Timer.waitTmr 0) (observeOne ⟨0, 0⟩ 7 false 1
        [Round.reply ⟨⟨KeyState.NotPersisted, 7, none⟩, ⟨0, 0, none⟩⟩ Wait.pollElapsed,
         Round.dispatchError]).trace = 1 :=
  have h := (observeOne_timers ⟨0, 0⟩ 7 false 1
    [Round.reply ⟨⟨KeyState.NotPersisted, 7, none⟩, ⟨0, 0, none⟩⟩ Wait.pollElapsed,
     Round.dispatchError]).2.2 (by decide)
  ⟨(h Timer.timeoutTmr).2 (by decide), (h (Timer.waitTmr 0)).2 (by decide)⟩


/-! ## Theorems: what the poller reports -/

/-- C20: for every run of `observeOne` that returns, exactly one value was
sent on the replication channel, and it is `true` if and only if some value
read from `commCh` before returning had bit 1 (`val & 1`) set; likewise for
the persistence channel and bit 2. In every run, returned or not, `true` is
sent for a flag only if some poll confirmed it, and a flag that a poll
confirmed is never reported `false`. -/
theorem observeOne_reports (mt : MutationToken) (cas : Cas) (forDelete : Bool)
    (repId : Int) (rounds : List Round) :
    (confirmedReplica mt cas forDelete repId rounds = true ↔
      ∃ r ∈ polled rounds, (observeOnce mt cas forDelete repId r &&& 1) ≠ 0) ∧
    (confirmedPersist mt cas forDelete repId rounds = true ↔
      ∃ r ∈ polled rounds, (observeOnce mt cas forDelete repId r &&& 2) ≠ 0) ∧
    (observeOne mt cas forDelete repId rounds).trace.count (Action.sendReplica true)
      = (if confirmedReplica mt cas forDelete repId rounds = true then 1 else 0) ∧
    (observeOne mt cas forDelete repId rounds).trace.count (Action.sendPersist true)
      = (if confirmedPersist mt cas forDelete repId rounds = true then 1 else 0) ∧
    (confirmedReplica mt cas forDelete repId rounds = true →
      (observeOne mt cas forDelete repId rounds).trace.count (Action.sendReplica false) = 0) ∧
    (confirmedPersist mt cas forDelete repId rounds = true →
      (observeOne mt cas forDelete repId rounds).trace.count (Action.sendPersist false) = 0) ∧
    ((observeOne mt cas forDelete repId rounds).returned = true →
      replicaSends (observeOne mt cas forDelete repId rounds).trace = 1 ∧
      persistSends (observeOne mt cas forDelete repId rounds).trace = 1 ∧
      ((observeOne mt cas forDelete repId rounds).trace.count (Action.sendReplica true) = 1 ↔
        confirmedReplica mt cas forDelete repId rounds = true) ∧
      ((observeOne mt cas forDelete repId rounds).trace.count (Action.sendReplica false) = 1 ↔
        confirmedReplica mt cas forDelete repId rounds = false) ∧
      ((observeOne mt cas forDelete repId rounds).trace.count (Action.sendPersist true) = 1 ↔
        confirmedPersist mt cas forDelete repId rounds = true) ∧
      ((observeOne mt cas forDelete repId rounds).trace.count (Action.sendPersist false) = 1 ↔
        confirmedPersist mt cas forDelete repId rounds = false)) := by
  obtain ⟨r1, r2⟩ := observeLoop_replica_values mt cas forDelete repId rounds Poller.start
  obtain ⟨p1, p2⟩ := observeLoop_persist_values mt cas forDelete repId rounds Poller.start
  have hret : (observeOne mt cas forDelete repId rounds).returned = terminates rounds := by
    unfold observeOne
    rw [observeLoop_returned]
    simp [Poller.start]
  obtain ⟨hm, hfl⟩ := observeLoop_sends mt cas forDelete repId rounds Poller.start start_sends
  unfold observeOne at hret ⊢
  have hs1 : Poller.start.sentReplicated = false := rfl
  have hs2 : Poller.start.sentPersisted = false := rfl
  have hc1 : Poller.start.trace.count (Action.sendReplica true) = 0 := by decide
  have hc2 : Poller.start.trace.count (Action.sendReplica false) = 0 := by decide
  have hc3 : Poller.start.trace.count (Action.sendPersist true) = 0 := by decide
  have hc4 : Poller.start.trace.count (Action.sendPersist false) = 0 := by decide
  simp only [hs1, hs2, hc1, hc2, hc3, hc4, true_and, Nat.zero_add] at r1 r2 p1 p2
  refine ⟨?_, ?_, ?_, ?_, ?_, ?_, ?_⟩
  · simp [confirmedReplica]
  · simp [confirmedPersist]
  · rw [r1]
  · rw [p1]
  · intro hc; rw [r2, hc]; simp
  · intro hc; rw [p2, hc]; simp
  · intro hr
    have ht : terminates rounds = true := by rw [← hret]; exact hr
    rcases hfl hr with h | ⟨f1, f2⟩
    · simp [Poller.start] at h
    · obtain ⟨m1, m2⟩ := hm
      rw [f1] at m1
      rw [f2] at m2
      refine ⟨by simpa using m1, by simpa using m2, ?_, ?_, ?_, ?_⟩
      · rw [r1]; cases confirmedReplica mt cas forDelete repId rounds <;> simp
      · rw [r2, ht]; cases confirmedReplica mt cas forDelete repId rounds <;> simp
      · rw [p1]; cases confirmedPersist mt cas forDelete repId rounds <;> simp
      · rw [p2, ht]; cases confirmedPersist mt cas forDelete repId rounds <;> simp

/-- Witness of C20: a replica under the CAS strategy that first sees
`NotPersisted` and then `Persisted`, both with the expected CAS, and then
reaches its deadline, reports `true` on both channels. -/
theorem observeOne_reports_witness :
    (observeOne ⟨0, 0⟩ 7 false 1
        [Round.reply ⟨⟨KeyState.NotPersisted, 7, none⟩, ⟨0, 0, none⟩⟩ Wait.pollElapsed,
         Round.reply ⟨⟨KeyState.Persisted, 7, none⟩, ⟨0, 0, none⟩⟩ Wait.pollElapsed,
         Round.deadline]).trace.count (Action.sendReplica true) = 1 ∧
    (observeOne ⟨0, 0⟩ 7 false 1
        [Round.reply ⟨⟨KeyState.NotPersisted, 7, none⟩, ⟨0, 0, none⟩⟩ Wait.pollElapsed,
         Round.reply ⟨⟨KeyState.Persisted, 7, none⟩, ⟨0, 0, none⟩⟩ Wait.pollElapsed,
         Round.deadline]).trace.count (Action.sendPersist true) = 1 :=
  have h := (observeOne_reports ⟨0, 0⟩ 7 false 1
    [Round.reply ⟨⟨KeyState.NotPersisted, 7, none⟩, ⟨0, 0, none⟩⟩ Wait.pollElapsed,
     Round.reply ⟨⟨KeyState.Persisted, 7, none⟩, ⟨0, 0, none⟩⟩ Wait.pollElapsed,
     Round.deadline]).2.2.2.2.2.2 (by decide)
  ⟨h.2.2.1.mpr (by decide), h.2.2.2.2.1.mpr (by decide)⟩


/-! ## Theorems: the wrappers -/

/-- C17: for each of `TouchDura`, `RemoveDura`, `UpsertDura`, `InsertDura`,
`ReplaceDura`, `AppendDura`, `PrependDura` and `CounterDura`: if the mutation
primitive returns an error, the wrapper returns that error with the
primitive's cas (and value, for `CounterDura`) and `durability` is not called;
otherwise the wrapper's error is the result of `durability` called once with
the key, the primitive's cas and mutation token and the caller's
`replicateTo`, `persistTo`, with `forDelete = true` for `RemoveDura` and
`forDelete = false` for all others. -/
theorem wrappers_sequence {ε V : Type} (durability : DuraCall → Option ε)
    (key text : String) (value : V) (cas : Cas) (expiry : Nat) (delta initial : Int)
    (replicateTo persistTo : Nat) (c : Cas) (m : MutationToken) (e : ε) (val : Nat) :
    (∀ (p : String → Cas → Nat → Cas × MutationToken × Option ε),
      (p key cas expiry = (c, m, some e) →
        TouchDura p durability key cas expiry replicateTo persistTo = ⟨c, some e, []⟩) ∧
      (p key cas expiry = (c, m, none) →
        TouchDura p durability key cas expiry replicateTo persistTo
          = ⟨c, durability ⟨key, c, m, replicateTo, persistTo, false⟩,
              [⟨key, c, m, replicateTo, persistTo, false⟩]⟩)) ∧
    (∀ (p : String → Cas → Cas × MutationToken × Option ε),
      (p key cas = (c, m, some e) →
        RemoveDura p durability key cas replicateTo persistTo = ⟨c, some e, []⟩) ∧
      (p key cas = (c, m, none) →
        RemoveDura p durability key cas replicateTo persistTo
          = ⟨c, durability ⟨key, c, m, replicateTo, persistTo, true⟩,
              [⟨key, c, m, replicateTo, persistTo, true⟩]⟩)) ∧
    (∀ (p : String → V → Nat → Cas × MutationToken × Option ε),
      (p key value expiry = (c, m, some e) →
        UpsertDura p durability key value expiry replicateTo persistTo = ⟨c, some e, []⟩) ∧
      (p key value expiry = (c, m, none) →
        UpsertDura p durability key value expiry replicateTo persistTo
          = ⟨c, durability ⟨key, c, m, replicateTo, persistTo, false⟩,
              [⟨key, c, m, replicateTo, persistTo, false⟩]⟩)) ∧
    (∀ (p : String → V → Nat → Cas × MutationToken × Option ε),
      (p key value expiry = (c, m, some e) →
        InsertDura p durability key value expiry replicateTo persistTo = ⟨c, some e, []⟩) ∧
      (p key value expiry = (c, m, none) →
        InsertDura p durability key value expiry replicateTo persistTo
          = ⟨c, durability ⟨key, c, m, replicateTo, persistTo, false⟩,
              [⟨key, c, m, replicateTo, persistTo, false⟩]⟩)) ∧
    (∀ (p : String → V → Cas → Nat → Cas × MutationToken × Option ε),
      (p key value cas expiry = (c, m, some e) →
        ReplaceDura p durability key value cas expiry replicateTo persistTo = ⟨c, some e, []⟩) ∧
      (p key value cas expiry = (c, m, none) →
        ReplaceDura p durability key value cas expiry replicateTo persistTo
          = ⟨c, durability ⟨key, c, m, replicateTo, persistTo, false⟩,
              [⟨key, c, m, replicateTo, persistTo, false⟩]⟩)) ∧
    (∀ (p : String → String → Cas × MutationToken × Option ε),
      (p key text = (c, m, some e) →
        AppendDura p durability key text replicateTo persistTo = ⟨c, some e, []⟩) ∧
      (p key text = (c, m, none) →
        AppendDura p durability key text replicateTo persistTo
          = ⟨c, durability ⟨key, c, m, replicateTo, persistTo, false⟩,
              [⟨key, c, m, replicateTo, persistTo, false⟩]⟩)) ∧
    (∀ (p : String → String → Cas × MutationToken × Option ε),
      (p key text = (c, m, some e) →
        PrependDura p durability key text replicateTo persistTo = ⟨c, some e, []⟩) ∧
      (p key text = (c, m, none) →
        PrependDura p durability key text replicateTo persistTo
          = ⟨c, durability ⟨key, c, m, replicateTo, persistTo, false⟩,
              [⟨key, c, m, replicateTo, persistTo, false⟩]⟩)) ∧
    (∀ (p : String → Int → Int → Nat → Nat × Cas × MutationToken × Option ε),
      (p key delta initial expiry = (val, c, m, some e) →
        CounterDura p durability key delta initial expiry replicateTo persistTo
          = ⟨(val, c), some e, []⟩) ∧
      (p key delta initial expiry = (val, c, m, none) →
        CounterDura p durability key delta initial expiry replicateTo persistTo
          = ⟨(val, c), durability ⟨key, c, m, replicateTo, persistTo, false⟩,
              [⟨key, c, m, replicateTo, persistTo, false⟩]⟩)) := by
  refine ⟨?_, ?_, ?_, ?_, ?_, ?_, ?_, ?_⟩
  · intro p
    constructor <;> intro h <;> simp [TouchDura, h]
  · intro p
    constructor <;> intro h <;> simp [RemoveDura, h]
  · intro p
    constructor <;> intro h <;> simp [UpsertDura, h]
  · intro p
    constructor <;> intro h <;> simp [InsertDura, h]
  · intro p
    constructor <;> intro h <;> simp [ReplaceDura, h]
  · intro p
    constructor <;> intro h <;> simp [AppendDura, h]
  · intro p
    constructor <;> intro h <;> simp [PrependDura, h]
  · intro p
    constructor <;> intro h <;> simp [CounterDura, h]

/-- Witness of C17: a `remove` that fails with "locked" and one that succeeds
with cas 9 and token `(1, 5)`, before a `durability` that reports the error
of line 184 for delete confirmations. -/
theorem wrappers_sequence_witness :
    (RemoveDura (fun _ _ => ((3 : Cas), (⟨0, 0⟩ : MutationToken), some errNotEnoughReplicas))
        (fun call => if call.forDelete = true then some errNotInTime else none)
        "k" 4 1 1).duraCalls = [] ∧
    (RemoveDura (fun _ _ => ((9 : Cas), (⟨1, 5⟩ : MutationToken), (none : Option clientError)))
        (fun call => if call.forDelete = true then some errNotInTime else none)
        "k" 4 1 1).err = some errNotInTime :=
  ⟨congrArg WrapperRun.duraCalls
      (((@wrappers_sequence clientError Unit
        (fun call => if call.forDelete = true then some errNotInTime else none)
        "k" "" () 4 0 0 0 1 1 3 ⟨0, 0⟩ errNotEnoughReplicas 0).2.1
        (fun _ _ => ((3 : Cas), (⟨0, 0⟩ : MutationToken), some errNotEnoughReplicas))).1 rfl),
    congrArg WrapperRun.err
      (((@wrappers_sequence clientError Unit
        (fun call => if call.forDelete = true then some errNotInTime else none)
        "k" "" () 4 0 0 0 1 1 9 ⟨1, 5⟩ errNotEnoughReplicas 0).2.1
        (fun _ _ => ((9 : Cas), (⟨1, 5⟩ : MutationToken), (none : Option clientError)))).2 rfl)⟩


/-! ## Theorems: the orchestrator, end to end -/

/-- C18: the orchestrator stops one signal short of the full total. For a
valid requirement, whenever `durability` returns an error it is the error of
line 184 and exactly `2 * serverCount - 1` signals have been read. This can
drop the last contribution: with one server, `replicaTo = 0`, `persistTo = 1`
and the two signals (replica: true), (persist: true), one replication and one
persistence signal per node, whose true values meet both thresholds, the
error is returned after the first signal. -/
theorem durability_stops_short :
    (∀ (numReplicas : Int) (replicaTo persistTo : Nat) (sigs : List Signal)
        (e : clientError),
      0 ≤ numReplicas → numReplicas < 4611686018427387903 →
      (replicaTo : Int) ≤ (numReplicas + 1) - 1 → (persistTo : Int) ≤ numReplicas + 1 →
      (durability numReplicas replicaTo persistTo sigs).outcome
        = Outcome.returned (some e) →
      e = errNotInTime ∧
      ((durability numReplicas replicaTo persistTo sigs).consumed : Int)
        = 2 * (numReplicas + 1) - 1) ∧
    (∃ (numReplicas : Int) (replicaTo persistTo : Nat) (sigs : List Signal),
      0 ≤ numReplicas ∧
      (replicaTo : Int) ≤ (numReplicas + 1) - 1 ∧ (persistTo : Int) ≤ numReplicas + 1 ∧
      (sigs.length : Int) = 2 * (numReplicas + 1) ∧
      ((sigs.count (Signal.replica true) + sigs.count (Signal.replica false) : Nat) : Int)
        = numReplicas + 1 ∧
      ((sigs.count (Signal.persist true) + sigs.count (Signal.persist false) : Nat) : Int)
        = numReplicas + 1 ∧
      quorumMet replicaTo persistTo sigs ∧
      (durability numReplicas replicaTo persistTo sigs).outcome
        = Outcome.returned (some errNotInTime) ∧
      ((durability numReplicas replicaTo persistTo sigs).consumed : Int)
        = 2 * (numReplicas + 1) - 1) := by
  constructor
  · intro numReplicas replicaTo persistTo sigs e h0 h1 hv1 hv2 ho
    have hvn : ¬ ((replicaTo : Int) > (numReplicas + 1) - 1 ∨
        (persistTo : Int) > numReplicas + 1) := by omega
    rw [durability_valid numReplicas replicaTo persistTo sigs h0 (by omega) hvn] at ho ⊢
    obtain ⟨m, -, -, hc, -, -, -, -, -, hfail⟩ :=
      accumulate_run (numReplicas + 1) replicaTo persistTo
        (startPollers (numReplicas + 1)) sigs (by omega) (by omega)
    obtain ⟨he, -, hm⟩ := hfail e ho
    exact ⟨he, by rw [hc]; exact hm⟩
  · exact ⟨0, 0, 1, [Signal.replica true, Signal.persist true], by decide⟩

/-- Witness of C18: the run of the one-server example stops after one of its
two signals. -/
theorem durability_stops_short_witness :
    ((durability 0 0 1 [Signal.replica true, Signal.persist true]).consumed : Int)
      = 2 * (0 + 1) - 1 :=
  (durability_stops_short.1 0 0 1 [Signal.replica true, Signal.persist true] errNotInTime
    (by decide) (by decide) (by decide) (by decide) (by decide)).2

/-- A poller none of whose polls confirms anything sends `false` on the
replication channel and then `false` on the persistence channel when it
returns. -/
theorem observeLoop_all_false (mt : MutationToken) (cas : Cas) (forDelete : Bool)
    (repId : Int) : ∀ (rounds : List Round) (s : Poller),
      s.sentReplicated = false → s.sentPersisted = false →
      terminates rounds = true →
      (∀ r ∈ polled rounds, observeOnce mt cas forDelete repId r = 0) →
      signalsOf (observeLoop mt cas forDelete repId s rounds).trace
        = signalsOf s.trace ++ [Signal.replica false, Signal.persist false] := by
  intro rounds
  induction rounds with
  | nil => intro s _ _ ht; simp [terminates] at ht
  | cons r rest ih =>
    intro s h1 h2 ht hz
    cases r with
    | dispatchError =>
      simp [observeLoop_dispatchError, failSends, h1, h2, signalsOf_append, signalsOf]
    | deadline =>
      simp [observeLoop_deadline, failSends, h1, h2, signalsOf_append, signalsOf]
    | reply rep w =>
      cases w with
      | pollElapsed =>
        have hv : observeOnce mt cas forDelete repId rep = 0 := hz rep (by simp [polled])
        have hrest : ∀ r ∈ polled rest, observeOnce mt cas forDelete repId r = 0 :=
          fun r hr => hz r (by simp [polled, hr])
        simp only [terminates] at ht
        rw [observeLoop_pollElapsed, hv,
          ih _ (by simp [Poller.afterPoll, h1]) (by simp [Poller.afterPoll, h2]) ht hrest]
        simp [Poller.afterPoll, valueSends, signalsOf_append, signalsOf]
      | deadline =>
        have hv : observeOnce mt cas forDelete repId rep = 0 := hz rep (by simp [polled])
        simp [observeLoop_waitDeadline, hv, gotValue_eq, failSends, valueSends, h1, h2,
          signalsOf_append, signalsOf]

theorem startPollers_length (n : Int) : (startPollers n).length = n.toNat := by
  simp [startPollers]

/-- For a valid requirement with `replicaTo >= 1` or `persistTo >= 1`: if
every poll of every node gives the value 0 and every node meets its deadline,
each poller has `false`, `false` to send, and in whatever order these
`2 * numServers` sends are offered, `durability` returns
"Failed to meet durability requirements in time." after receiving
`2 * numServers - 1` of them. -/
theorem durability_offered_all_false (numReplicas : Int) (replicaTo persistTo : Nat)
    (mt : MutationToken) (cas : Cas) (forDelete : Bool) (rounds : Int → List Round)
    (sigs : List Signal)
    (h0 : 0 ≤ numReplicas) (h1 : numReplicas < 4611686018427387903)
    (hv : (replicaTo : Int) ≤ (numReplicas + 1) - 1 ∧ (persistTo : Int) ≤ numReplicas + 1)
    (hreq : 1 ≤ replicaTo ∨ 1 ≤ persistTo)
    (hpoll : ∀ repId ∈ startPollers (numReplicas + 1),
      terminates (rounds repId) = true ∧
      ∀ r ∈ polled (rounds repId), observeOnce mt cas forDelete repId r = 0)
    (hsigs : sigs.Perm (((startPollers (numReplicas + 1)).map fun repId =>
      signalsOf (observeOne mt cas forDelete repId (rounds repId)).trace).flatten)) :
    (∀ repId ∈ startPollers (numReplicas + 1),
      signalsOf (observeOne mt cas forDelete repId (rounds repId)).trace
        = [Signal.replica false, Signal.persist false]) ∧
    (durability numReplicas replicaTo persistTo sigs).pollers
      = startPollers (numReplicas + 1) ∧
    (durability numReplicas replicaTo persistTo sigs).outcome
      = Outcome.returned (some errNotInTime) ∧
    ((durability numReplicas replicaTo persistTo sigs).consumed : Int)
      = 2 * (numReplicas + 1) - 1 ∧
    (sigs.length : Int) = 2 * (numReplicas + 1) := by
  have hp : ∀ repId ∈ startPollers (numReplicas + 1),
      signalsOf (observeOne mt cas forDelete repId (rounds repId)).trace
        = [Signal.replica false, Signal.persist false] := by
    intro repId hmem
    obtain ⟨ht, hz⟩ := hpoll repId hmem
    unfold observeOne
    rw [observeLoop_all_false mt cas forDelete repId _ Poller.start rfl rfl ht hz]
    rfl
  -- the signals are `2 * numServers` values `false`
  have hmap : ((startPollers (numReplicas + 1)).map fun repId =>
      signalsOf (observeOne mt cas forDelete repId (rounds repId)).trace)
      = (startPollers (numReplicas + 1)).map fun _ =>
          [Signal.replica false, Signal.persist false] :=
    List.map_congr_left fun repId hmem => hp repId hmem
  rw [hmap] at hsigs
  have hpairs : ∀ l : List Int, ((l.map fun _ =>
      [Signal.replica false, Signal.persist false]).flatten).length = 2 * l.length := by
    intro l
    induction l with
    | nil => rfl
    | cons a t ih =>
      simp only [List.map_cons, List.flatten_cons, List.length_append, ih, List.length_cons,
        List.length_nil]
      omega
  have hlen : sigs.length = 2 * (numReplicas + 1).toNat := by
    rw [hsigs.length_eq, hpairs, startPollers_length]
  have hfalse : ∀ x ∈ sigs, x = Signal.replica false ∨ x = Signal.persist false := by
    intro x hx
    have hx2 := hsigs.subset hx
    rw [List.mem_flatten] at hx2
    obtain ⟨l, hl, hxl⟩ := hx2
    rw [List.mem_map] at hl
    obtain ⟨_, _, rfl⟩ := hl
    simpa using hxl
  have hnone : ∀ k, trueReplicas (sigs.take k) = 0 ∧ truePersists (sigs.take k) = 0 := by
    intro k
    constructor
    · unfold trueReplicas
      rw [List.count_eq_zero]
      intro hm
      rcases hfalse _ (List.mem_of_mem_take hm) with h | h <;> cases h
    · unfold truePersists
      rw [List.count_eq_zero]
      intro hm
      rcases hfalse _ (List.mem_of_mem_take hm) with h | h <;> cases h
  have hvn : ¬ ((replicaTo : Int) > (numReplicas + 1) - 1 ∨
      (persistTo : Int) > numReplicas + 1) := by omega
  rw [durability_valid numReplicas replicaTo persistTo sigs h0 (by omega) hvn]
  obtain ⟨m, hm, hlim, hc, -, hps, -, hblk, hsucc, hfail⟩ :=
    accumulate_run (numReplicas + 1) replicaTo persistTo
      (startPollers (numReplicas + 1)) sigs (by omega) (by omega)
  have hlenI : (sigs.length : Int) = 2 * (numReplicas + 1) := by omega
  have hout : (accumulate (numReplicas + 1) replicaTo persistTo
      (startPollers (numReplicas + 1)) ⟨0, 0, 0⟩ 0 sigs).outcome
      = Outcome.returned (some errNotInTime) := by
    cases ho : (accumulate (numReplicas + 1) replicaTo persistTo
        (startPollers (numReplicas + 1)) ⟨0, 0, 0⟩ 0 sigs).outcome with
    | blocked =>
      exfalso
      have := (hblk ho).1
      omega
    | returned e =>
      cases e with
      | none =>
        exfalso
        obtain ⟨-, hq1, hq2⟩ := hsucc ho
        obtain ⟨z1, z2⟩ := hnone m
        rw [z1] at hq1
        rw [z2] at hq2
        omega
      | some e =>
        rw [(hfail e ho).1]
  refine ⟨hp, hps, hout, ?_, hlenI⟩
  rw [hc]
  exact (hfail _ hout).2.2

/-- C15 (the code at the failing input): one server, `replicaTo = 0`,
`persistTo = 1`, CAS strategy with expected CAS 7; the node reports
`NotPersisted` with CAS 9 and then meets its deadline, so that its poller has
`false` to send on `replicaCh` and then on `persistCh`. `durability` returns
"Failed to meet durability requirements in time." after the first of the two,
because line 183 compares `results` with `numServers * 2 - 1`; the poller,
one of whose sends is received, stays blocked in `persistCh <- false`
(line 97): it has sent nothing on the persistence channel and has not
returned. -/
theorem durability_all_false_last_send :
    signalsOf (observeOne ⟨0, 0⟩ 7 false 0
        [Round.reply ⟨⟨KeyState.NotPersisted, 9, none⟩, ⟨0, 0, none⟩⟩ Wait.pollElapsed,
         Round.deadline]).trace
      = [Signal.replica false, Signal.persist false] ∧
    (durability 0 0 1 [Signal.replica false, Signal.persist false]).outcome
      = Outcome.returned (some errNotInTime) ∧
    (durability 0 0 1 [Signal.replica false, Signal.persist false]).consumed = 1 ∧
    (observeOneReceived ⟨0, 0⟩ 7 false 0
        [Round.reply ⟨⟨KeyState.NotPersisted, 9, none⟩, ⟨0, 0, none⟩⟩ Wait.pollElapsed,
         Round.deadline]
        (durability 0 0 1 [Signal.replica false, Signal.persist false]).consumed).pending
      = some (Action.sendPersist false) ∧
    persistSends (observeOneReceived ⟨0, 0⟩ 7 false 0
        [Round.reply ⟨⟨KeyState.NotPersisted, 9, none⟩, ⟨0, 0, none⟩⟩ Wait.pollElapsed,
         Round.deadline]
        (durability 0 0 1 [Signal.replica false, Signal.persist false]).consumed).trace
      = 0 ∧
    (observeOneReceived ⟨0, 0⟩ 7 false 0
        [Round.reply ⟨⟨KeyState.NotPersisted, 9, none⟩, ⟨0, 0, none⟩⟩ Wait.pollElapsed,
         Round.deadline]
        (durability 0 0 1 [Signal.replica false, Signal.persist false]).consumed).returned
      = false := by
  decide

theorem mem_signalsOf_replica (tr : List Action) (v : Bool) :
    Signal.replica v ∈ signalsOf tr ↔ Action.sendReplica v ∈ tr := by
  unfold signalsOf
  rw [List.mem_filterMap]
  constructor
  · rintro ⟨a, ha, h⟩
    cases a <;> simp at h
    subst h
    exact ha
  · intro h
    exact ⟨_, h, rfl⟩

/-- Under the CAS strategy without the delete flag the master's poller never
sends `true` on the replication channel. -/
theorem observeOne_master_cas (mt : MutationToken) (cas : Cas) (rounds : List Round)
    (ht : tokenStrategy mt = false) :
    (observeOne mt cas false 0 rounds).trace.count (Action.sendReplica true) = 0 := by
  have hbit : ∀ r ∈ polled rounds, (observeOnce mt cas false 0 r &&& 1) = 0 := by
    intro r _
    have hsel : observeOnce mt cas false 0 r = observeOnceCas cas false 0 r.cas := by
      unfold observeOnce
      simp only [tokenStrategy, decide_eq_false_iff_not] at ht
      rw [if_neg ht]
    rw [hsel]
    exact observeOnceCas_master_bit cas _
  have hc := confirmedReplica_false mt cas false 0 rounds hbit
  have h := (observeLoop_replica_values mt cas false 0 rounds Poller.start).1
  unfold observeOne
  rw [h, hc]
  simp [Poller.start]

/-- C19: under the token strategy the master's replication signal counts
toward `replicaTo`. With two servers, the token `(1, 5)`, `replicaTo = 1` and
`persistTo = 0` there is a run in which the master (node index 0) has applied
sequence number 5 and the replica has not, the only `true` signal is the
master's replication signal, and `durability` returns success. Under the CAS
strategy with `forDelete = false` there is no such run: whenever no node
other than the master sends `true` on the replication channel, a requirement
with `replicaTo >= 1` is never answered with success. -/
theorem durability_master_counts :
    (∃ (mt : MutationToken) (cas : Cas) (rounds : Int → List Round) (sigs : List Signal),
      tokenStrategy mt = true ∧
      (durability 1 1 0 sigs).pollers = [0, 1] ∧
      sigs.Perm (signalsOf (observeOne mt cas false 0 (rounds 0)).trace ++
        signalsOf (observeOne mt cas false 1 (rounds 1)).trace) ∧
      signalsOf (observeOne mt cas false 0 (rounds 0)).trace
        = [Signal.replica true, Signal.persist false] ∧
      signalsOf (observeOne mt cas false 1 (rounds 1)).trace
        = [Signal.replica false, Signal.persist false] ∧
      confirmedReplica mt cas false 1 (rounds 1) = false ∧
      (durability 1 1 0 sigs).outcome = Outcome.returned none) ∧
    (∀ (numReplicas : Int) (replicaTo persistTo : Nat) (mt : MutationToken) (cas : Cas)
        (rounds : Int → List Round) (sigs : List Signal),
      0 ≤ numReplicas → numReplicas < 4611686018427387903 →
      (replicaTo : Int) ≤ (numReplicas + 1) - 1 → (persistTo : Int) ≤ numReplicas + 1 →
      1 ≤ replicaTo →
      tokenStrategy mt = false →
      (∀ sig ∈ sigs, ∃ repId ∈ startPollers (numReplicas + 1),
        sig ∈ signalsOf (observeOne mt cas false repId (rounds repId)).trace) →
      (∀ repId ∈ startPollers (numReplicas + 1), repId ≠ 0 →
        (observeOne mt cas false repId (rounds repId)).trace.count
          (Action.sendReplica true) = 0) →
      (durability numReplicas replicaTo persistTo sigs).outcome
        ≠ Outcome.returned none) := by
  constructor
  · refine ⟨⟨1, 5⟩, 7,
      (fun repId => if repId = 0 then
          [Round.reply ⟨⟨KeyState.Unknown, 0, none⟩, ⟨5, 0, none⟩⟩ Wait.pollElapsed,
           Round.deadline]
        else
          [Round.reply ⟨⟨KeyState.Unknown, 0, none⟩, ⟨4, 0, none⟩⟩ Wait.pollElapsed,
           Round.deadline]),
      [Signal.replica true, Signal.replica false, Signal.persist false,
        Signal.persist false], ?_⟩
    decide
  · intro numReplicas replicaTo persistTo mt cas rounds sigs h0 h1 hv1 hv2 hr ht hfrom hothers ho
    have hno : Signal.replica true ∉ sigs := by
      intro hmem
      obtain ⟨repId, hp, hs⟩ := hfrom _ hmem
      rw [mem_signalsOf_replica] at hs
      have hpos := List.count_pos_iff.mpr hs
      by_cases hz : repId = 0
      · subst hz
        have := observeOne_master_cas mt cas (rounds 0) ht
        omega
      · have := hothers repId hp hz
        omega
    have hvn : ¬ ((replicaTo : Int) > (numReplicas + 1) - 1 ∨
        (persistTo : Int) > numReplicas + 1) := by omega
    rw [durability_valid numReplicas replicaTo persistTo sigs h0 (by omega) hvn] at ho
    obtain ⟨m, -, -, -, -, -, -, -, hsucc, -⟩ :=
      accumulate_run (numReplicas + 1) replicaTo persistTo
        (startPollers (numReplicas + 1)) sigs (by omega) (by omega)
    obtain ⟨-, hq, -⟩ := hsucc ho
    have hz : trueReplicas (sigs.take m) = 0 := by
      unfold trueReplicas
      rw [List.count_eq_zero]
      exact fun hm => hno (List.mem_of_mem_take hm)
    omega

/-- Witness of C19: two servers under the CAS strategy, non-delete; both
nodes report `Persisted` with the expected CAS but node 1's reports are lost
to its deadline, so that only the master has seen the mutation: the signals
(persist: true), (replica: false) do not give success for `replicaTo = 1`. -/
theorem durability_master_counts_witness :
    (durability 1 1 0 [Signal.persist true, Signal.replica false]).outcome
      ≠ Outcome.returned none :=
  durability_master_counts.2 1 1 0 ⟨0, 0⟩ 7
    (fun repId => if repId = 0 then
        [Round.reply ⟨⟨KeyState.Persisted, 7, none⟩, ⟨0, 0, none⟩⟩ Wait.deadline]
      else [Round.deadline])
    [Signal.persist true, Signal.replica false]
    (by decide) (by decide) (by decide) (by decide) (by decide) (by decide)
    (by decide) (by decide)


/-- When every send is received the run on unbuffered channels is the run of
`observeOne`. -/
theorem upToSend_all : ∀ (tr : List Action) (accepted : Nat),
    tr.countP Action.isSend ≤ accepted → upToSend accepted tr = (tr, none) := by
  intro tr
  induction tr with
  | nil => intro accepted _; rfl
  | cons a rest ih =>
    intro accepted h
    by_cases hs : a.isSend = true
    · rw [List.countP_cons_of_pos _ _ hs] at h
      cases accepted with
      | zero => omega
      | succ n =>
        simp only [upToSend, hs, if_true]
        rw [ih n (by omega)]
    · rw [List.countP_cons_of_neg _ _ hs] at h
      simp only [upToSend, hs]
      rw [ih accepted h]
      rfl

theorem observeOneReceived_all (mt : MutationToken) (cas : Cas) (forDelete : Bool)
    (repId : Int) (rounds : List Round) (accepted : Nat)
    (h : (observeOne mt cas forDelete repId rounds).trace.countP Action.isSend
      ≤ accepted) :
    observeOneReceived mt cas forDelete repId rounds accepted
      = { trace := (observeOne mt cas forDelete repId rounds).trace, pending := none,
          returned := (observeOne mt cas forDelete repId rounds).returned } := by
  unfold observeOneReceived
  simp only [upToSend_all _ _ h]
  simp

end Gocb
